import Mathlib

/-!
# Verification of the VISMA CSV ingestion engine (`app_2visma.py`)

Shallow embedding of the tolerant tabular ingestion and normalization engine:
the numeric coercer `safe_float_parse`, the header locator `find_header_row`,
and the three file parsers `parse_stock_visma`, `parse_eco_visma`,
`parse_fuel_log`.

Modelling conventions:
* Python `float` values are modelled by `PyFloat`: an exact rational plus the
  IEEE special values `nan`, `inf`, `neginf`.  Every numeric value exercised
  by the claims (`1250.50`, `6252.50`, `117649.0`, small sums) is exactly
  representable in binary64 and the binary64 operations on them are exact,
  so the rational idealization is faithful at every point used.
* A parser's input is the decoded file as a list of lines (the result of
  `readlines` with the trailing newlines immaterial, since every consumer
  strips the line or tokenizes it).
* `None` / hard failure is `Option.none`; missing cells (pandas `NaN`) are
  `Value.num PyFloat.nan`; `pd.NaT` is `Value.date none`.
-/

/-! ## Python float values -/

/-- A Python `float`: an exact rational, or one of the IEEE special values. -/
inductive PyFloat where
  | finite (q : ℚ)
  | nan
  | inf
  | neginf
deriving DecidableEq, Repr

namespace PyFloat

/-- Multiplication of two finite rationals, written with `mkRat` on the
numerators/denominators (definitionally equal to `a * b`, see
`PyFloat.finiteMul_eq`; the `mkRat` form lets the kernel evaluate it). -/
def finiteMul (a b : ℚ) : ℚ := mkRat (a.num * b.num) (a.den * b.den)

/-- Addition of two finite rationals via `mkRat` (equals `a + b`, see
`PyFloat.finiteAdd_eq`). -/
def finiteAdd (a b : ℚ) : ℚ := mkRat (a.num * b.den + b.num * a.den) (a.den * b.den)

/-- IEEE-754 multiplication on the modelled values. -/
def mul : PyFloat → PyFloat → PyFloat
  | nan, _ => nan
  | _, nan => nan
  | inf, inf => inf
  | inf, neginf => neginf
  | neginf, inf => neginf
  | neginf, neginf => inf
  | inf, finite q => if 0 < q.num then inf else if q.num < 0 then neginf else nan
  | finite q, inf => if 0 < q.num then inf else if q.num < 0 then neginf else nan
  | neginf, finite q => if 0 < q.num then neginf else if q.num < 0 then inf else nan
  | finite q, neginf => if 0 < q.num then neginf else if q.num < 0 then inf else nan
  | finite a, finite b => finite (finiteMul a b)

/-- IEEE-754 addition on the modelled values. -/
def add : PyFloat → PyFloat → PyFloat
  | nan, _ => nan
  | _, nan => nan
  | inf, neginf => nan
  | neginf, inf => nan
  | inf, _ => inf
  | _, inf => inf
  | neginf, _ => neginf
  | _, neginf => neginf
  | finite a, finite b => finite (finiteAdd a b)

/-- `pd.isna` on a float: true exactly for NaN. -/
def isnaF : PyFloat → Bool
  | nan => true
  | _ => false

end PyFloat

/-! ## Python string helpers (modelled over `List Char`) -/

/-- The ASCII whitespace characters recognized by Python's `str.strip()`
(Unicode spaces are not modelled; the files at hand are ASCII/UTF-8 CSV). -/
def isPyWs (c : Char) : Bool :=
  c = ' ' ∨ c = '\t' ∨ c = '\n' ∨ c = '\r' ∨ c = '\x0b' ∨ c = '\x0c'

/-- Python `str.strip()` on a character list. -/
def stripL (l : List Char) : List Char :=
  ((l.dropWhile isPyWs).reverse.dropWhile isPyWs).reverse

/-- Python `str.strip()`. -/
def pyStrip (s : String) : String := String.mk (stripL s.data)

/-- Python `str.replace(c, "")`: remove every occurrence of a character. -/
def removeAll (l : List Char) (c : Char) : List Char := l.filter (fun x => x ≠ c)

/-- Python `str.replace(a, b)` for single characters. -/
def replaceChar (l : List Char) (a b : Char) : List Char :=
  l.map (fun c => if c = a then b else c)

/-- Python `str.rfind(c)`: index of the last occurrence, `-1` when absent. -/
def pyRfind (l : List Char) (c : Char) : Int :=
  match l.reverse.findIdx? (fun x => x = c) with
  | some j => (l.length : Int) - 1 - (j : Int)
  | none => -1

/-- ASCII lower-casing of one character (`str.lower()` on ASCII data). -/
def asciiLower (c : Char) : Char :=
  if 'A' ≤ c ∧ c ≤ 'Z' then Char.ofNat (c.toNat + 32) else c

/-- ASCII upper-casing of one character (`str.upper()` on ASCII data). -/
def asciiUpper (c : Char) : Char :=
  if 'a' ≤ c ∧ c ≤ 'z' then Char.ofNat (c.toNat - 32) else c

/-- Python `str.upper()` restricted to ASCII. -/
def pyUpper (s : String) : String := String.mk (s.data.map asciiUpper)

def isDigitC (c : Char) : Bool := '0' ≤ c ∧ c ≤ '9'

def digitVal (c : Char) : Nat := c.toNat - 48

def natOfDigits (l : List Char) : Nat := l.foldl (fun n c => n * 10 + digitVal c) 0

/-! ## The Python `float()` constructor

`safe_float_parse` ends in a call to the builtin `float()`.  The builtin is
modelled here by `pyFloat`: after stripping surrounding whitespace it accepts
an optional sign followed by either a case-insensitive `inf` / `infinity` /
`nan`, or a decimal mantissa (digits, optionally with a single dot, with
underscores allowed only between digits) and an optional `e`/`E` exponent.
Anything else is a parse failure (`none`), which `float()` signals by raising
`ValueError`. -/

/-- Parse a maximal run of digits in which `_` may appear only between two
digits (Python's numeric-literal underscore rule).  Returns the digits with
underscores removed, and the unconsumed rest. -/
def digitsUGo : List Char → List Char × List Char
  | [] => ([], [])
  | c :: cs =>
    if isDigitC c then
      let (d, r) := digitsUGo cs
      (c :: d, r)
    else if c = '_' then
      match cs with
      | d :: _ =>
        if isDigitC d then digitsUGo cs
        else ([], c :: cs)
      | [] => ([], c :: cs)
    else ([], c :: cs)

/-- Parse the decimal mantissa `digits [. digits]` or `. digits`.  The result
is the pair `(n, k)` denoting the value `n / 10 ^ k`, plus the rest. -/
def parseMantissa (l : List Char) : Option (Nat × Nat × List Char) :=
  let (ip, r1) := digitsUGo l
  match r1 with
  | '.' :: rest =>
    let (fp, r2) := digitsUGo rest
    if ip = [] ∧ fp = [] then none
    else some (natOfDigits ip * 10 ^ fp.length + natOfDigits fp, fp.length, r2)
  | _ => if ip = [] then none else some (natOfDigits ip, 0, r1)

/-- Parse an optional `e`/`E` exponent. -/
def parseExp : List Char → Option (Int × List Char)
  | [] => some (0, [])
  | c :: cs =>
    if c = 'e' ∨ c = 'E' then
      match cs with
      | '+' :: cs2 =>
        let (d, r) := digitsUGo cs2
        if d = [] then none else some ((natOfDigits d : Int), r)
      | '-' :: cs2 =>
        let (d, r) := digitsUGo cs2
        if d = [] then none else some (-(natOfDigits d : Int), r)
      | _ =>
        let (d, r) := digitsUGo cs
        if d = [] then none else some ((natOfDigits d : Int), r)
    else some (0, c :: cs)

/-- The body of `float()` after whitespace stripping and sign extraction. -/
def pyFloatCore (l : List Char) : Option PyFloat :=
  let sb : Bool × List Char :=
    match l with
    | '+' :: r => (false, r)
    | '-' :: r => (true, r)
    | _ => (false, l)
  let neg := sb.1
  let body := sb.2
  let low := body.map asciiLower
  if low = ['i', 'n', 'f'] ∨ low = ['i', 'n', 'f', 'i', 'n', 'i', 't', 'y'] then
    some (if neg then .neginf else .inf)
  else if low = ['n', 'a', 'n'] then some .nan
  else
    match parseMantissa body with
    | none => none
    | some (n, k, r1) =>
      match parseExp r1 with
      | none => none
      | some (e, r2) =>
        if r2 = [] then
          let m : Int := if neg then -(n : Int) else (n : Int)
          let v : ℚ :=
            if 0 ≤ e then Rat.divInt (m * 10 ^ e.toNat) (10 ^ k)
            else Rat.divInt m (10 ^ k * 10 ^ (-e).toNat)
          some (.finite v)
        else none

/-- Model of the Python builtin `float(s)`: `none` models `ValueError`. -/
def pyFloat (s : String) : Option PyFloat :=
  let l := stripL s.data
  if l = [] then none else pyFloatCore l

/-! ## The numeric coercer `safe_float_parse` (source lines 26-59) -/

/-- The sentinel strings of line 33 (note `'nan'` is lower-case only). -/
def sentinelStrings : List String :=
  ["", "-", ".", "$", "nan", "#N/A", "N/A", "#VALUE!", "None"]

/-- `safe_float_parse` (source lines 26-59).  The argument is `none` for an
absent input (`pd.isna` true); for a string input `pd.isna` is false and the
string branch runs. -/
def safe_float_parse (x : Option String) : PyFloat :=
  match x with
  | none => .finite 0
  | some s =>
    if sentinelStrings.contains (pyStrip s) then .finite 0
    else
      let a := (pyStrip s).data
      let b := removeAll a '$'
      let c := removeAll b ' '
      let e :=
        if c.contains ',' ∧ c.contains '.' then
          if pyRfind c '.' < pyRfind c ',' then replaceChar (removeAll c '.') ',' '.'
          else removeAll c ','
        else if c.contains ',' then replaceChar c ',' '.'
        else c
      if e = [] ∨ e = ['+'] ∨ e = ['-'] then .finite 0
      else
        match pyFloat (String.mk e) with
        | some f => f
        | none => .finite 0

/-! ## Spec-side reference definition of the numeric coercer

`coerceSpec` follows the five rules of the spec's NumericCoercer contract
(spec section 4.1), to be compared with the source translation
`safe_float_parse`.  Rule 2's "strip whitespace" is read as the removal of
space characters (together with the initial trimming of rule 1), matching
the glossary of the contract; rule 3 names a decimal-separator character and
strips the other. -/

/-- The spec's five-rule reference coercer (spec section 4.1, rules 1-5). -/
def coerceSpec (x : Option String) : PyFloat :=
  match x with
  | none => .finite 0
  | some s =>
    let t := pyStrip s
    if t = "" ∨ sentinelStrings.contains t then .finite 0
    else
      let u := removeAll (removeAll t.data '$') ' '
      let v :=
        if u.contains ',' ∧ u.contains '.' then
          let dec : Char := if pyRfind u '.' < pyRfind u ',' then ',' else '.'
          let other : Char := if dec = ',' then '.' else ','
          replaceChar (removeAll u other) dec '.'
        else if u.contains ',' then replaceChar u ',' '.'
        else u
      if v = [] ∨ v = ['+'] ∨ v = ['-'] then .finite 0
      else
        match pyFloat (String.mk v) with
        | some f => f
        | none => .finite 0

/-! ## CSV tokenization (`csv.reader` with `delimiter=','`)

All line tokenization in the source goes through
`csv.reader(io.StringIO(line), delimiter=',')` on a single line.  This is the
standard csv state machine (quote character `"`, doubled quotes inside a
quoted field, non-strict mode: stray quote characters are taken literally),
which on a single line always yields exactly one row, so it is modelled as a
total function.  The `except csv.Error` branches guarding it in the source
are consequently unreachable and the corresponding skip-with-warning
behaviour is never exercised. -/

inductive CsvState where
  | startField
  | inField
  | inQuoted
  | quoteInQuoted

/-- The csv field-splitting state machine. -/
def csvGo (st : CsvState) (cur : List Char) : List Char → List String
  | [] => [String.mk cur.reverse]
  | c :: cs =>
    match st with
    | .startField =>
      if c = '"' then csvGo .inQuoted cur cs
      else if c = ',' then String.mk cur.reverse :: csvGo .startField [] cs
      else csvGo .inField (c :: cur) cs
    | .inField =>
      if c = ',' then String.mk cur.reverse :: csvGo .startField [] cs
      else csvGo .inField (c :: cur) cs
    | .inQuoted =>
      if c = '"' then csvGo .quoteInQuoted cur cs
      else csvGo .inQuoted (c :: cur) cs
    | .quoteInQuoted =>
      if c = '"' then csvGo .inQuoted ('"' :: cur) cs
      else if c = ',' then String.mk cur.reverse :: csvGo .startField [] cs
      else csvGo .inField (c :: cur) cs

/-- Tokenize one line with comma-delimited quoted-field splitting. -/
def csvSplit (s : String) : List String := csvGo .startField [] s.data

/-! ## Header location (`find_header_row`, source lines 62-97) -/

/-- The byte-order mark. -/
def bomChar : Char := '﻿'

/-- `s[1:] if s.startswith(BOM) else s`. -/
def dropBom (s : String) : String :=
  match s.data with
  | c :: rest => if c = bomChar then String.mk rest else s
  | [] => s

/-- Clean the tokenized fields of a candidate header line (source lines
81-83): trim every field, and strip a leading BOM from the first field. -/
def cleanFields (fields : List String) : List String :=
  let cleaned := fields.map pyStrip
  match cleaned with
  | [] => []
  | f :: rest => dropBom f :: rest

/-- One step of the scan loop of `find_header_row`: does this stripped,
non-blank line match the expected header exactly? -/
def lineMatches (expected : List String) (line : String) : Bool :=
  pyStrip line ≠ "" ∧ cleanFields (csvSplit (pyStrip line)) = expected

/-- The scan loop of `find_header_row` (`i` is the index of the first line of
`ls` in the file). -/
def fhrGo (expected : List String) (i : Nat) : List String → Option (Nat × List String)
  | [] => none
  | l :: ls =>
    if pyStrip l = "" then fhrGo expected (i + 1) ls
    else
      let cleaned := cleanFields (csvSplit (pyStrip l))
      if cleaned = expected then some (i, cleaned)
      else fhrGo expected (i + 1) ls

/-- `find_header_row` (source lines 62-97): scan the first `searchRange`
lines for one whose cleaned comma-split fields equal `expected` exactly;
return its 0-based index and the cleaned fields, or `none`. -/
def find_header_row (content : List String) (expected : List String)
    (searchRange : Nat := 50) : Option (Nat × List String) :=
  fhrGo expected 0 (content.take searchRange)

/-! ## Cells and DataFrames

The three parsers manipulate pandas DataFrames.  A DataFrame is modelled
row-major: a list of column names and a list of rows, each row a list of
cells positionally aligned with the column names.  A cell is a string, a
float (with `PyFloat.nan` standing for a missing value), or a
date-or-NaT (`Value.date none` is `pd.NaT`).  Every column-wise pandas
operation used by the source is per-cell, so it is modelled by mapping the
rows. -/

inductive Value where
  | str (s : String)
  | num (f : PyFloat)
  | date (d : Option (Nat × Nat × Nat))
deriving DecidableEq, Repr

/-- `pd.notna` on a cell. -/
def notnaCell : Value → Bool
  | .str _ => true
  | .num f => ¬ f.isnaF
  | .date d => d.isSome

/-- `astype(str)` on a cell as used on string columns: a missing value
(float NaN) becomes the literal string `"nan"` (the pandas `astype(str)`
behaviour).  String columns only ever hold strings or missing values, so the
other cases are unreachable and left unchanged. -/
def astypeStr : Value → Value
  | .num PyFloat.nan => .str "nan"
  | v => v

/-- `astype(str).str.strip().fillna('')` (source lines 195, 540, 576): after
`astype(str)` no NaN remains, so `fillna` is a no-op. -/
def cleanStrCell (v : Value) : Value :=
  match astypeStr v with
  | .str s => .str (pyStrip s)
  | w => w

/-- `.apply(safe_float_parse)` on a cell.  A missing value has `pd.isna`
true and coerces to `0.0`; a float cell would be `repr`-ed and re-parsed to
itself by `float()` (only reachable for non-NaN floats, which never occur
before coercion); a string runs the string branch. -/
def coerceCell : Value → Value
  | .str s => .num (safe_float_parse (some s))
  | .num f => .num (if f.isnaF then .finite 0 else f)
  | .date _ => .num (.finite 0)

/-- `.fillna(0.0)` on a numeric cell. -/
def fillna0 : Value → Value
  | .num PyFloat.nan => .num (.finite 0)
  | v => v

/-- The float carried by a numeric cell (arithmetic is only ever applied to
already-coerced numeric columns, so the non-numeric cases are unreachable;
they are sent to NaN). -/
def toFloat : Value → PyFloat
  | .num f => f
  | _ => .nan

/-- Cell-wise product (`df[a] * df[b]`). -/
def mulCell (a b : Value) : Value := .num (PyFloat.mul (toFloat a) (toFloat b))

/-- A pandas DataFrame, row-major. -/
structure DF where
  cols : List String
  rows : List (List Value)
deriving DecidableEq, Repr

namespace DF

def hasCol (df : DF) (c : String) : Bool := df.cols.contains c

/-- The cell of row `r` in the (first) column named `c`, walking names and
cells in lockstep; the default is only used for malformed frames that the
pipelines never build. -/
def getCell : List String → List Value → String → Value
  | [], _, _ => .str ""
  | _, [], _ => .str ""
  | c0 :: cs, v :: vs, c => if c0 = c then v else getCell cs vs c

/-- Apply `f` to the cells of row `r` lying in columns named `c`. -/
def mapRowAt : List String → String → (Value → Value) → List Value → List Value
  | _, _, _, [] => []
  | [], _, _, r => r
  | c0 :: cs, c, f, v :: vs => (if c0 = c then f v else v) :: mapRowAt cs c f vs

/-- `df[c] = df[c].apply(f)` (column must exist; cells mapped in place). -/
def mapCol (df : DF) (c : String) (f : Value → Value) : DF :=
  { df with rows := df.rows.map (mapRowAt df.cols c f) }

/-- `df[c] = v`: overwrite an existing column with a constant, or append a
new constant column. -/
def setColConst (df : DF) (c : String) (v : Value) : DF :=
  if df.hasCol c then df.mapCol c (fun _ => v)
  else ⟨df.cols ++ [c], df.rows.map (fun r => r ++ [v])⟩

/-- `df[c] = <expression of the row>`: overwrite or append a column computed
from each (original) row. -/
def setColFn (df : DF) (c : String) (f : List String → List Value → Value) : DF :=
  if df.hasCol c then
    { df with rows := df.rows.map (fun r => mapRowAt df.cols c (fun _ => f df.cols r) r) }
  else ⟨df.cols ++ [c], df.rows.map (fun r => r ++ [f df.cols r])⟩

/-- `df[mask]`: keep the rows satisfying the predicate. -/
def filterRows (df : DF) (p : List String → List Value → Bool) : DF :=
  { df with rows := df.rows.filter (p df.cols) }

/-- `df.rename(columns=...)` restricted to the sources present. -/
def renameCols (df : DF) (m : List (String × String)) : DF :=
  { df with cols := df.cols.map (fun c => match m.lookup c with | some d => d | none => c) }

/-- `df.loc[:, [c for c in sel if c in df.columns]]`. -/
def selectCols (df : DF) (sel : List String) : DF :=
  let keep := sel.filter (fun c => df.cols.contains c)
  ⟨keep, df.rows.map (fun r => keep.map (fun c => getCell df.cols r c))⟩

/-- The rows of the frame as records (column name, cell) — the view the
claims quantify over. -/
def records (df : DF) : List (List (String × Value)) :=
  df.rows.map (fun r => df.cols.zip r)

end DF

/-! ## Row materialization (source lines 144-170) -/

/-- Pad a short token list with empty fields, truncate a long one (source
lines 154-160). -/
def padTruncFields (fields : List String) (n : Nat) : List String :=
  if fields.length < n then fields ++ List.replicate (n - fields.length) ""
  else fields.take n

/-- Materialize the data rows after the header for the stock parser: strip
each line, skip blank lines, tokenize, pad/truncate to the header's field
count. -/
def materializeRows (lines : List String) (n : Nat) : List (List Value) :=
  lines.filterMap (fun l =>
    if pyStrip l = "" then none
    else some ((padTruncFields (csvSplit (pyStrip l)) n).map Value.str))

/-! ## The stock parser `parse_stock_visma` (source lines 102-265) -/

def stockFullHeader : List String :=
  ["Codigo", "Producto", "Categoria", "CantidadActual", "CostoUnitario",
   "Ubicacion", "STOCK_MINIMO"]

def stockNoMinHeader : List String :=
  ["Codigo", "Producto", "Categoria", "CantidadActual", "CostoUnitario", "Ubicacion"]

def stockFinalCols : List String :=
  ["Codigo", "Producto", "Categoria", "CantidadActual", "CostoUnitario",
   "Valor Total Item", "Ubicacion", "STOCK_MINIMO"]

def stockStringCols : List String := ["Codigo", "Producto", "Categoria", "Ubicacion"]

def stockNumericCols : List String := ["CantidadActual", "CostoUnitario"]

/-- The numeric-typed members of `stockFinalCols` (source line 237). -/
def stockNumericFinal : List String :=
  ["CantidadActual", "CostoUnitario", "Valor Total Item", "STOCK_MINIMO"]

/-- Default for a final stock column added late (source lines 235-240). -/
def stockDefault (c : String) : Value :=
  if stockNumericFinal.contains c then .num (.finite 0) else .str ""

/-- Header detection for the stock file (source lines 119-136): try the full
candidate first, then the fallback without `STOCK_MINIMO`.  The boolean
records which candidate matched (`use_stock_min_column`). -/
def stockDetect (content : List String) : Option (Nat × List String × Bool) :=
  match find_header_row content stockFullHeader 50 with
  | some (i, names) => some (i, names, true)
  | none =>
    match find_header_row content stockNoMinHeader 50 with
    | some (i, names) => some (i, names, false)
    | none => none

/-- Source lines 193-195: trim the string columns that are present. -/
def stockCleanStrings (df : DF) : DF :=
  stockStringCols.foldl (fun d c => if d.hasCol c then d.mapCol c cleanStrCell else d) df

/-- Source lines 198-200: add absent string columns as `""`. -/
def stockAddMissingStrings (df : DF) : DF :=
  stockStringCols.foldl (fun d c => if d.hasCol c then d else d.setColConst c (.str "")) df

/-- Source lines 205-208: coerce the numeric columns that are present. -/
def stockCoerceNumerics (df : DF) : DF :=
  stockNumericCols.foldl (fun d c => if d.hasCol c then d.mapCol c coerceCell else d) df

/-- Source lines 210-215: coerce `STOCK_MINIMO` when present, else add it
with default `0.0`. -/
def stockHandleMin (df : DF) : DF :=
  if df.hasCol "STOCK_MINIMO" then df.mapCol "STOCK_MINIMO" coerceCell
  else df.setColConst "STOCK_MINIMO" (.num (.finite 0))

/-- Source lines 219-221: add absent numeric columns with default `0.0`. -/
def stockAddMissingNumerics (df : DF) : DF :=
  stockNumericCols.foldl (fun d c => if d.hasCol c then d else d.setColConst c (.num (.finite 0))) df

/-- Source line 226: `Valor Total Item = CantidadActual * CostoUnitario`
(with `fillna(0.0)` on both factors). -/
def stockDerive (df : DF) : DF :=
  df.setColFn "Valor Total Item" (fun cols r =>
    mulCell (fillna0 (DF.getCell cols r "CantidadActual"))
            (fillna0 (DF.getCell cols r "CostoUnitario")))

/-- Source lines 235-240: ensure all final columns exist. -/
def stockEnsureFinal (df : DF) : DF :=
  stockFinalCols.foldl (fun d c => if d.hasCol c then d else d.setColConst c (stockDefault c)) df

/-- The cleaning/normalization block of `parse_stock_visma` (source lines
184-240), stage by stage. -/
def stockNormalize (names : List String) (dataRows : List (List Value)) : DF :=
  stockEnsureFinal (stockDerive (stockAddMissingNumerics (stockHandleMin
    (stockCoerceNumerics (stockAddMissingStrings (stockCleanStrings (DF.mk names dataRows)))))))

/-- The validity filter of `parse_stock_visma` (source lines 243-251). -/
def stockFilter (df : DF) : DF :=
  if df.hasCol "Codigo" ∧ df.hasCol "Categoria" then
    df.filterRows (fun cols r =>
      DF.getCell cols r "Codigo" ≠ .str "" ∧ DF.getCell cols r "Categoria" ≠ .str "")
  else df

/-- `parse_stock_visma` (source lines 102-265).  `none` is the hard-failure
marker (`return None`, line 132); an empty but structured frame is the
no-data success (lines 177-180). -/
def parse_stock_visma (content : List String) : Option DF :=
  match stockDetect content with
  | none => none
  | some (i, names, _) =>
    let dataRows := materializeRows (content.drop (i + 1)) names.length
    if dataRows.isEmpty then some ⟨stockFinalCols, []⟩
    else some ((stockFilter (stockNormalize names dataRows)).selectCols stockFinalCols)

/-! ## The budget parser `parse_eco_visma` (source lines 268-399)

The frame built here always has exactly the three matched header columns
`Categoria`, `Invierno`, `Verano`, so the source's column-presence guards
(lines 340-354, 375) are always satisfied and the error branches returning
the zeroed structure are unreachable; they are omitted from the model. -/

def ecoHeader : List String := ["Categoria", "Invierno", "Verano"]

def ecoInternalKeys : List String :=
  ["Movilizacion", "Costos Directos", "Costos Indirectos/Generales", "Utilidades"]

/-- The fixed label lookup table (source lines 359-364). -/
def category_mapping_to_internal_key (s : String) : Option String :=
  if s = "Movilizacion" then some "Movilizacion"
  else if s = "CostosDirectos" then some "Costos Directos"
  else if s = "CostosIndirectosGenerales" then some "Costos Indirectos/Generales"
  else if s = "Utilidades" then some "Utilidades"
  else none

/-- The 4x2 budget grid (`parsed_costs`): one cell per internal key and
season. -/
structure EcoData where
  invMov : PyFloat
  invDir : PyFloat
  invInd : PyFloat
  invUti : PyFloat
  verMov : PyFloat
  verDir : PyFloat
  verInd : PyFloat
  verUti : PyFloat
deriving DecidableEq, Repr

def zeroEco : EcoData :=
  ⟨.finite 0, .finite 0, .finite 0, .finite 0, .finite 0, .finite 0, .finite 0, .finite 0⟩

/-- The winter cell for an internal key. -/
def EcoData.inv (g : EcoData) (key : String) : PyFloat :=
  if key = "Movilizacion" then g.invMov
  else if key = "Costos Directos" then g.invDir
  else if key = "Costos Indirectos/Generales" then g.invInd
  else if key = "Utilidades" then g.invUti
  else .finite 0

/-- The summer cell for an internal key. -/
def EcoData.ver (g : EcoData) (key : String) : PyFloat :=
  if key = "Movilizacion" then g.verMov
  else if key = "Costos Directos" then g.verDir
  else if key = "Costos Indirectos/Generales" then g.verInd
  else if key = "Utilidades" then g.verUti
  else .finite 0

/-- `parsed_costs['invierno'][key] += w; parsed_costs['verano'][key] += v`. -/
def ecoAdd (g : EcoData) (key : String) (w v : PyFloat) : EcoData :=
  if key = "Movilizacion" then
    { g with invMov := g.invMov.add w, verMov := g.verMov.add v }
  else if key = "Costos Directos" then
    { g with invDir := g.invDir.add w, verDir := g.verDir.add v }
  else if key = "Costos Indirectos/Generales" then
    { g with invInd := g.invInd.add w, verInd := g.verInd.add v }
  else if key = "Utilidades" then
    { g with invUti := g.invUti.add w, verUti := g.verUti.add v }
  else g

/-- Materialize the budget data rows (source lines 304-326): strip, skip
blank lines, tokenize, and keep exactly the rows with the header's field
count (others are skipped with a warning, line 313-315). -/
def materializeEcoRows (lines : List String) (n : Nat) : List (List String) :=
  lines.filterMap (fun l =>
    if pyStrip l = "" then none
    else
      let fields := csvSplit (pyStrip l)
      if fields.length ≠ n then none else some fields)

/-- Cleaning of one budget row (source lines 341, 351): trimmed label and
the two coerced season values. -/
def ecoCleanRow (r : List String) : String × PyFloat × PyFloat :=
  (pyStrip (r.getD 0 ""),
   safe_float_parse (some (r.getD 1 "")),
   safe_float_parse (some (r.getD 2 "")))

/-- The accumulation loop of `parse_eco_visma` (source lines 376-386). -/
def ecoAccum (rows : List (String × PyFloat × PyFloat)) : EcoData :=
  rows.foldl (fun g r =>
    match category_mapping_to_internal_key r.1 with
    | some k => if ecoInternalKeys.contains k then ecoAdd g k r.2.1 r.2.2 else g
    | none => g) zeroEco

/-- `parse_eco_visma` (source lines 268-399): `none` is the hard-failure
marker (line 297); a found header with no 3-field data rows yields the
zeroed grid (lines 329-332). -/
def parse_eco_visma (content : List String) : Option EcoData :=
  match find_header_row content ecoHeader 50 with
  | none => none
  | some (i, names) =>
    let rows := materializeEcoRows (content.drop (i + 1)) names.length
    if rows.isEmpty then some zeroEco
    else some (ecoAccum (rows.map ecoCleanRow))

/-! ## The fuel-log parser `parse_fuel_log` (source lines 402-664) -/

def fuelDataHeader : List String :=
  ["Fecha", "Equipo", "CodigoCombustible", "LtsIngreso", "LtsEgreso", "HsKm",
   "Comentarios", "CostoUnitarioLt"]

/-- `empty_fuel_cols_template` (source line 411). -/
def fuelTemplateCols : List String :=
  ["Fecha", "Equipo/Int.", "Codigo", "Lts Ingreso", "Lts Egreso", "HsKm",
   "Comentarios", "Tipo de Comb.", "Hs/Km_Numeric", "Costo Unitario Lt",
   "Costo Total Egreso"]

/-- `internal_standard_cols_ordered` (source lines 635-638). -/
def fuelInternalCols : List String :=
  ["Fecha", "Equipo/Int.", "Codigo", "Lts Ingreso", "Lts Egreso", "HsKm",
   "Hs/Km_Numeric", "Tipo de Comb.", "Comentarios", "Costo Unitario Lt",
   "Costo Total Egreso"]

def fuelStringCols : List String := ["Equipo", "CodigoCombustible", "HsKm", "Comentarios"]

def fuelNumericCols : List String := ["LtsIngreso", "LtsEgreso", "CostoUnitarioLt"]

/-- `rename_map_to_internal` (source lines 618-625). -/
def fuelRenameMap : List (String × String) :=
  [("Equipo", "Equipo/Int."), ("CodigoCombustible", "Codigo"),
   ("LtsIngreso", "Lts Ingreso"), ("LtsEgreso", "Lts Egreso"),
   ("CostoUnitarioLt", "Costo Unitario Lt")]

/-- The numeric members of `fuelInternalCols` (source line 643). -/
def fuelNumericInternal : List String :=
  ["Lts Ingreso", "Lts Egreso", "Hs/Km_Numeric", "Costo Unitario Lt",
   "Costo Total Egreso"]

/-- Default for an internal standard column added late (source lines
641-648). -/
def fuelDefault (c : String) : Value :=
  if fuelNumericInternal.contains c then .num (.finite 0)
  else if c = "Fecha" then .date none
  else .str ""

/-! ### Date parsing

Modelled from the spec: "Date parsing: day-first date formats, invalid dates
become an explicit "no date" marker" — the library call
`pd.to_datetime(..., errors='coerce', dayfirst=True)` (source line 531) is
not repository code; it is modelled as accepting day-first dates of the
shapes `dd-mm-yyyy` and `dd/mm/yyyy` (one- or two-digit day and month,
four-digit year, day 1-31, month 1-12) and sending every other string, and
every missing value, to NaT. -/

def dateSepC (c : Char) : Bool := c = '-' ∨ c = '/'

/-- Split a character list on date separators. -/
def splitSep : List Char → List (List Char)
  | [] => [[]]
  | c :: cs =>
    let r := splitSep cs
    if dateSepC c then [] :: r
    else
      match r with
      | h :: t => (c :: h) :: t
      | [] => [[c]]

def allDigits (l : List Char) : Bool := l.all isDigitC

/-- The modelled `pd.to_datetime(s, errors='coerce', dayfirst=True)`. -/
def pdToDatetime (s : String) : Option (Nat × Nat × Nat) :=
  match splitSep (stripL s.data) with
  | [d, m, y] =>
    if allDigits d ∧ allDigits m ∧ allDigits y ∧
       d ≠ [] ∧ d.length ≤ 2 ∧ m ≠ [] ∧ m.length ≤ 2 ∧ y.length = 4 then
      let dd := natOfDigits d
      let mm := natOfDigits m
      if 1 ≤ dd ∧ dd ≤ 31 ∧ 1 ≤ mm ∧ mm ≤ 12 then some (dd, mm, natOfDigits y)
      else none
    else none
  | _ => none

/-- `pd.to_datetime` applied to a cell: missing values become NaT. -/
def dateCell : Value → Value
  | .str s => .date (pdToDatetime s)
  | .num _ => .date none
  | v => v

/-! ### The SETUP/header scan (source lines 428-477) -/

/-- The state of the SETUP scan: the two balances, the code-to-category
mapping, and the data header offset once found. -/
structure FuelScanState where
  saldoGasoil : PyFloat
  saldoNafta : PyFloat
  mapping : List (String × String)
  headerIdx : Option Nat
deriving DecidableEq, Repr

def fuelScanInit : FuelScanState := ⟨.finite 0, .finite 0, [], none⟩

/-- `fuel_type_mapping[code] = fuel_type`: dict assignment; the list is
consulted with `List.lookup` (first match), so prepending models
last-assignment-wins. -/
def dictInsert (m : List (String × String)) (k v : String) : List (String × String) :=
  (k, v) :: m

/-- Processing of one `SETUP` line (source lines 453-470); `fc` is the
cleaned field list. -/
def fuelSetupStep (st : FuelScanState) (fc : List String) : FuelScanState :=
  if fc.length > 1 then
    let kind := pyUpper (fc.getD 1 "")
    if kind = "SALDO INICIAL GASOIL" then
      if fc.length > 2 then { st with saldoGasoil := safe_float_parse (some (fc.getD 2 "")) }
      else st
    else if kind = "SALDO INICIAL NAFTA" then
      if fc.length > 2 then { st with saldoNafta := safe_float_parse (some (fc.getD 2 "")) }
      else st
    else if kind = "MAPEO CODIGO" then
      if fc.length > 3 then
        let code := fc.getD 2 ""
        let fuelType := fc.getD 3 ""
        if code ≠ "" ∧ fuelType ≠ "" then
          { st with mapping := dictInsert st.mapping (pyStrip code) (pyStrip fuelType) }
        else st
      else st
    else st
  else st

/-- The scan loop (source lines 431-477): strip and tokenize each line
(removing a BOM only on line 0), process `SETUP` lines, and stop at the
first line whose cleaned fields equal the data header (`break`, line 477).
Lines that match neither rule are skipped. -/
def fuelScanGo (st : FuelScanState) (i : Nat) : List String → FuelScanState
  | [] => st
  | l :: ls =>
    let s := pyStrip l
    if s = "" then fuelScanGo st (i + 1) ls
    else
      let raw := csvSplit s
      let raw2 :=
        if i = 0 then
          match raw with
          | f :: rest => dropBom f :: rest
          | [] => []
        else raw
      let fc := raw2.map pyStrip
      match fc with
      | [] => fuelScanGo st (i + 1) ls
      | f0 :: _ =>
        if pyUpper f0 = "SETUP" then fuelScanGo (fuelSetupStep st fc) (i + 1) ls
        else if fc = fuelDataHeader then { st with headerIdx := some i }
        else fuelScanGo st (i + 1) ls

/-- The SETUP/header scan over the first 100 lines
(`search_range_setup = min(len(content), 100)`, source line 430). -/
def fuelScan (content : List String) : FuelScanState :=
  fuelScanGo fuelScanInit 0 (content.take 100)

/-! ### The data block read (source lines 491-503)

`pd.read_csv(io.StringIO(data_block_string), sep=',', header=0, dtype=str,
keep_default_na=False, low_memory=False)` is a library call; it is modelled
as: the first line of the block supplies the column names; blank lines are
skipped; a data row with fewer fields than columns is filled up with missing
values (`NaN` — with `keep_default_na=False` empty *fields* stay `""` but
genuinely absent trailing fields are still missing); a data row with more
fields than columns is modelled as the tokenization error that
`pd.read_csv` raises, caught at source lines 499-503 (the index-column
inference pandas applies when every data row is uniformly longer than the
header is not modelled). -/

def readCsvRows (n : Nat) : List String → Option (List (List Value))
  | [] => some []
  | l :: ls =>
    if l = "" then readCsvRows n ls
    else
      let ts := csvSplit l
      if n < ts.length then none
      else
        match readCsvRows n ls with
        | none => none
        | some rs =>
          some ((ts.map Value.str ++ List.replicate (n - ts.length) (Value.num .nan)) :: rs)

def readCsvBlock : List String → Option DF
  | [] => none
  | hdr :: rest =>
    let cols := csvSplit hdr
    match readCsvRows cols.length rest with
    | none => none
    | some rows => some ⟨cols, rows⟩

/-! ### Cleaning, derivation, filtering, finalization -/

/-- `df['CodigoCombustible'].map(fuel_type_mapping).fillna('Desconocido')`
applied per cell (source line 577): a missing code cell maps to NaN and is
filled with the unknown marker. -/
def fuelTypeCell (mapping : List (String × String)) (v : Value) : Value :=
  match v with
  | .str s =>
    match mapping.lookup s with
    | some t => .str t
    | none => .str "Desconocido"
  | _ => .str "Desconocido"

/-- Source lines 515-523: positional rename when the read column count
matches the expected data header. -/
def fuelRename (dfRaw : DF) : DF :=
  if dfRaw.cols.length = fuelDataHeader.length then DF.mk fuelDataHeader dfRaw.rows
  else dfRaw

/-- Source lines 530-534: date conversion (NaT column when absent). -/
def fuelDates (df : DF) : DF :=
  if df.hasCol "Fecha" then df.mapCol "Fecha" dateCell
  else df.setColConst "Fecha" (.date none)

/-- Source lines 537-543: clean present string columns, add absent ones. -/
def fuelCleanStrings (df : DF) : DF :=
  fuelStringCols.foldl
    (fun d c => if d.hasCol c then d.mapCol c cleanStrCell else d.setColConst c (.str "")) df

/-- Source lines 547-553: coerce present numeric columns, default absent. -/
def fuelCoerceNumerics (df : DF) : DF :=
  fuelNumericCols.foldl
    (fun d c => if d.hasCol c then d.mapCol c coerceCell else d.setColConst c (.num (.finite 0))) df

/-- Source lines 557-562: `Hs/Km_Numeric` from `HsKm`, NaN filled with 0. -/
def fuelHsKm (df : DF) : DF :=
  (df.setColFn "Hs/Km_Numeric" (fun cols r => coerceCell (DF.getCell cols r "HsKm"))).mapCol
    "Hs/Km_Numeric" fillna0

/-- Source lines 565-570: `Costo Total Egreso = LtsEgreso * CostoUnitarioLt`
(with `fillna(0.0)` on both factors). -/
def fuelDerive (df : DF) : DF :=
  if df.hasCol "LtsEgreso" ∧ df.hasCol "CostoUnitarioLt" then
    df.setColFn "Costo Total Egreso" (fun cols r =>
      mulCell (fillna0 (DF.getCell cols r "LtsEgreso"))
              (fillna0 (DF.getCell cols r "CostoUnitarioLt")))
  else df.setColConst "Costo Total Egreso" (.num (.finite 0))

/-- Source lines 573-580: the derived fuel category. -/
def fuelCategory (mapping : List (String × String)) (df : DF) : DF :=
  if df.hasCol "CodigoCombustible" then
    (df.mapCol "CodigoCombustible" cleanStrCell).setColFn "Tipo de Comb."
      (fun cols r => fuelTypeCell mapping (DF.getCell cols r "CodigoCombustible"))
  else df.setColConst "Tipo de Comb." (.str "Desconocido")

/-- The cleaning and derivation block of `parse_fuel_log` (source lines
515-580), stage by stage. -/
def fuelNormalize (mapping : List (String × String)) (dfRaw : DF) : DF :=
  fuelCategory mapping (fuelDerive (fuelHsKm (fuelCoerceNumerics (fuelCleanStrings
    (fuelDates (fuelRename dfRaw))))))

/-- The `astype(str).str.strip() != ''` test of the row filters (source
lines 597, 604). -/
def nonEmptyStrCell (v : Value) : Bool :=
  match astypeStr v with
  | .str s => pyStrip s ≠ ""
  | _ => false

/-- The validity filter of `parse_fuel_log` (source lines 583-613): keep
rows with a valid date, a non-empty equipment identifier and a non-empty
fuel code; when a column is absent it is first added with an all-na/empty
default (which then removes every row). -/
def fuelFilterDate (df : DF) : DF :=
  if df.hasCol "Fecha" then
    df.filterRows (fun cols r => notnaCell (DF.getCell cols r "Fecha"))
  else
    (df.setColConst "Fecha" (.date none)).filterRows
      (fun cols r => notnaCell (DF.getCell cols r "Fecha"))

def fuelFilterEquipo (df : DF) : DF :=
  if df.hasCol "Equipo" then
    df.filterRows (fun cols r => nonEmptyStrCell (DF.getCell cols r "Equipo"))
  else
    (df.setColConst "Equipo" (.str "")).filterRows
      (fun cols r => nonEmptyStrCell (DF.getCell cols r "Equipo"))

def fuelFilterCodigo (df : DF) : DF :=
  if df.hasCol "CodigoCombustible" then
    df.filterRows (fun cols r => nonEmptyStrCell (DF.getCell cols r "CodigoCombustible"))
  else
    (df.setColConst "CodigoCombustible" (.str "")).filterRows
      (fun cols r => nonEmptyStrCell (DF.getCell cols r "CodigoCombustible"))

def fuelFilter (df : DF) : DF := fuelFilterCodigo (fuelFilterEquipo (fuelFilterDate df))

/-- The rename/ensure/reorder tail of `parse_fuel_log` (source lines
616-652). -/
def fuelEnsureInternal (df : DF) : DF :=
  fuelInternalCols.foldl (fun d c => if d.hasCol c then d else d.setColConst c (fuelDefault c)) df

def fuelFinalize (df : DF) : DF :=
  (fuelEnsureInternal (df.renameCols fuelRenameMap)).selectCols fuelInternalCols

/-- `parse_fuel_log` (source lines 402-664).  Whatever happens after the
scan, the function returns a pair of a structured frame and the balances
(the `return None` of line 664 answers only a raised exception, which the
modelled paths never produce): header never found or block read failed or
empty block all yield the empty template frame. -/
def parse_fuel_log (content : List String) : Option (DF × (PyFloat × PyFloat)) :=
  let st := fuelScan content
  let balances := (st.saldoGasoil, st.saldoNafta)
  match st.headerIdx with
  | none => some (⟨fuelTemplateCols, []⟩, balances)
  | some i =>
    match readCsvBlock (content.drop i) with
    | none => some (⟨fuelTemplateCols, []⟩, balances)
    | some dfRaw =>
      if dfRaw.rows.isEmpty ∨ dfRaw.cols.isEmpty then
        some (⟨fuelTemplateCols, []⟩, balances)
      else
        some (fuelFinalize (fuelFilter (fuelNormalize st.mapping dfRaw)), balances)

/-! ## Record access and the unfiltered stock table -/

/-- Value of a record's column: assoc lookup over the (name, cell) list. -/
def recLook (rec : List (String × Value)) (c : String) : Value :=
  match rec.lookup c with
  | some v => v
  | none => .str ""

/-- The stock pipeline with its validity filter removed (the spec's pipeline
up to and excluding `ValidityFilter`), for comparison with
`parse_stock_visma`. -/
def stockUnfiltered (content : List String) : Option DF :=
  match stockDetect content with
  | none => none
  | some (i, names, _) =>
    let dataRows := materializeRows (content.drop (i + 1)) names.length
    if dataRows.isEmpty then some ⟨stockFinalCols, []⟩
    else some ((stockNormalize names dataRows).selectCols stockFinalCols)

/-- The per-row effect of `fuelNormalize` on a raw 8-field row: date
conversion, string cleaning, numeric coercion, the `Hs/Km_Numeric` column,
the derived `Costo Total Egreso` product and the mapped `Tipo de Comb.`
category (source lines 529-580), written out as a single function. -/
def fuelRowFun (mapping : List (String × String)) (r : List Value) : List Value :=
  let r2 := fuelNumericCols.foldl (fun r2 c => DF.mapRowAt fuelDataHeader c coerceCell r2)
    (fuelStringCols.foldl (fun r2 c => DF.mapRowAt fuelDataHeader c cleanStrCell r2)
      (DF.mapRowAt fuelDataHeader "Fecha" dateCell r))
  let r4 := DF.mapRowAt (fuelDataHeader ++ ["Hs/Km_Numeric"]) "Hs/Km_Numeric" fillna0
    (r2 ++ [coerceCell (DF.getCell fuelDataHeader r2 "HsKm")])
  let r5 := r4 ++
    [mulCell (fillna0 (DF.getCell (fuelDataHeader ++ ["Hs/Km_Numeric"]) r4 "LtsEgreso"))
     (fillna0 (DF.getCell (fuelDataHeader ++ ["Hs/Km_Numeric"]) r4 "CostoUnitarioLt"))]
  let r6 := DF.mapRowAt ((fuelDataHeader ++ ["Hs/Km_Numeric"]) ++ ["Costo Total Egreso"])
    "CodigoCombustible" cleanStrCell r5
  r6 ++ [fuelTypeCell mapping
    (DF.getCell ((fuelDataHeader ++ ["Hs/Km_Numeric"]) ++ ["Costo Total Egreso"]) r6
      "CodigoCombustible")]

/-! # Theorems

First a toolkit of lemmas about the embedding, then one theorem per claim
(with witnesses and counterexamples where required). -/

/-! ## Arithmetic bridges -/

/-- The `mkRat` form of multiplication agrees with rational multiplication. -/
theorem PyFloat.finiteMul_eq (a b : ℚ) : PyFloat.finiteMul a b = a * b := by
  rw [PyFloat.finiteMul, Rat.mkRat_eq_div]
  push_cast
  rw [← div_mul_div_comm, Rat.num_div_den, Rat.num_div_den]

/-- The `mkRat` form of addition agrees with rational addition. -/
theorem PyFloat.finiteAdd_eq (a b : ℚ) : PyFloat.finiteAdd a b = a + b := by
  have ha : (a.den : ℚ) ≠ 0 := by positivity
  have hb : (b.den : ℚ) ≠ 0 := by positivity
  have hA : (a.num : ℚ) = a * a.den := (div_eq_iff ha).mp (Rat.num_div_den a)
  have hB : (b.num : ℚ) = b * b.den := (div_eq_iff hb).mp (Rat.num_div_den b)
  rw [PyFloat.finiteAdd, Rat.mkRat_eq_div]
  push_cast
  rw [hA, hB, div_eq_iff (by positivity : (a.den : ℚ) * b.den ≠ 0)]
  ring

/-! ## List and row toolkit -/

theorem replaceChar_self (l : List Char) (a : Char) : replaceChar l a a = l := by
  have h : (fun c => if c = a then a else c) = fun c : Char => c := by
    funext c
    by_cases hc : c = a <;> simp [hc]
  simp [replaceChar, h]

theorem padTruncFields_length (fs : List String) (n : Nat) :
    (padTruncFields fs n).length = n := by
  rw [padTruncFields]
  split <;> simp <;> omega

theorem materializeRows_length (lines : List String) (n : Nat) :
    ∀ r ∈ materializeRows lines n, r.length = n := by
  intro r hr
  rw [materializeRows, List.mem_filterMap] at hr
  obtain ⟨l, _, hl⟩ := hr
  by_cases hb : pyStrip l = ""
  · simp [hb] at hl
  · rw [if_neg hb] at hl
    cases hl
    simp [padTruncFields_length]

theorem cons_of_length_succ (l : List Value) (n : Nat) (h : l.length = n + 1) :
    ∃ a t, l = a :: t ∧ t.length = n := by
  cases l with
  | nil => simp at h
  | cons a t => exact ⟨a, t, rfl, by simpa using h⟩

theorem eq_of_length_six (l : List Value) (h : l.length = 6) :
    ∃ a b c d e f, l = [a, b, c, d, e, f] := by
  obtain ⟨a, l1, rfl, h1⟩ := cons_of_length_succ l 5 h
  obtain ⟨b, l2, rfl, h2⟩ := cons_of_length_succ l1 4 h1
  obtain ⟨c, l3, rfl, h3⟩ := cons_of_length_succ l2 3 h2
  obtain ⟨d, l4, rfl, h4⟩ := cons_of_length_succ l3 2 h3
  obtain ⟨e, l5, rfl, h5⟩ := cons_of_length_succ l4 1 h4
  obtain ⟨f, l6, rfl, h6⟩ := cons_of_length_succ l5 0 h5
  rw [List.length_eq_zero] at h6
  exact ⟨a, b, c, d, e, f, by rw [h6]⟩

theorem eq_of_length_seven (l : List Value) (h : l.length = 7) :
    ∃ a b c d e f g, l = [a, b, c, d, e, f, g] := by
  obtain ⟨a, l1, rfl, h1⟩ := cons_of_length_succ l 6 h
  obtain ⟨b, c, d, e, f, g, hl⟩ := eq_of_length_six l1 h1
  exact ⟨a, b, c, d, e, f, g, by rw [hl]⟩

theorem eq_of_length_eight (l : List Value) (h : l.length = 8) :
    ∃ a b c d e f g i, l = [a, b, c, d, e, f, g, i] := by
  obtain ⟨a, l1, rfl, h1⟩ := cons_of_length_succ l 7 h
  obtain ⟨b, c, d, e, f, g, i, hl⟩ := eq_of_length_seven l1 h1
  exact ⟨a, b, c, d, e, f, g, i, by rw [hl]⟩

theorem zip_map_graph (L : List String) (g : String → Value) :
    L.zip (L.map g) = L.map (fun c => (c, g c)) := by
  induction L with
  | nil => rfl
  | cons c cs ih => simp [ih]

theorem recLook_graph (L : List String) (g : String → Value) (c : String) :
    recLook (L.map (fun x => (x, g x))) c = if L.contains c then g c else .str "" := by
  induction L with
  | nil => rfl
  | cons x xs ih =>
    by_cases h : c = x
    · subst h
      simp [recLook, List.lookup]
    · rw [recLook] at ih ⊢
      have hbx : (c == x) = false := by simp [h]
      simp only [List.map_cons, List.lookup, hbx, List.contains_cons, Bool.false_or]
      exact ih

theorem records_selectCols (df : DF) (sel : List String) :
    (df.selectCols sel).records =
      df.rows.map (fun r =>
        (sel.filter (fun c => df.cols.contains c)).map
          (fun c => (c, DF.getCell df.cols r c))) := by
  simp [DF.selectCols, DF.records, zip_map_graph]

theorem map_fst_graph (L : List String) (g : String → Value) :
    (L.map (fun c => (c, g c))).map Prod.fst = L := by
  rw [List.map_map]
  exact List.map_id L

/-! ## DataFrame column lemmas -/

theorem DF.cols_mapCol (df : DF) (c : String) (f : Value → Value) :
    (df.mapCol c f).cols = df.cols := rfl

theorem DF.cols_filterRows (df : DF) (p : List String → List Value → Bool) :
    (df.filterRows p).cols = df.cols := rfl

theorem DF.cols_setColConst (df : DF) (c : String) (v : Value) :
    (df.setColConst c v).cols = if df.hasCol c then df.cols else df.cols ++ [c] := by
  rw [DF.setColConst]
  split <;> simp_all [DF.cols_mapCol]

theorem DF.cols_setColFn (df : DF) (c : String) (f : List String → List Value → Value) :
    (df.setColFn c f).cols = if df.hasCol c then df.cols else df.cols ++ [c] := by
  rw [DF.setColFn]
  split <;> simp_all

theorem DF.hasCol_iff (df : DF) (c : String) : df.hasCol c ↔ c ∈ df.cols := by
  rw [DF.hasCol]
  simp

theorem DF.hasCol_setColConst_self (df : DF) (c : String) (v : Value) :
    (df.setColConst c v).hasCol c := by
  rw [DF.hasCol_iff, DF.cols_setColConst]
  split
  · exact (DF.hasCol_iff df c).mp (by assumption)
  · simp

theorem DF.hasCol_setColConst_of (df : DF) (c c2 : String) (v : Value)
    (h : df.hasCol c) : (df.setColConst c2 v).hasCol c := by
  rw [DF.hasCol_iff, DF.cols_setColConst]
  split
  · exact (DF.hasCol_iff df c).mp h
  · simp [List.mem_append]
    exact Or.inl ((DF.hasCol_iff df c).mp h)

/-- The `add missing columns with defaults` loops preserve existing
columns. -/
theorem ensure_foldl_hasCol_mono (L : List String) (g : String → Value) (df : DF)
    (c : String) (h : df.hasCol c) :
    (L.foldl (fun d c2 => if d.hasCol c2 then d else d.setColConst c2 (g c2)) df).hasCol c := by
  induction L generalizing df with
  | nil => exact h
  | cons x xs ih =>
    rw [List.foldl_cons]
    apply ih
    split
    · exact h
    · exact DF.hasCol_setColConst_of df c x (g x) h

/-- After an `add missing columns` loop over `L`, every column of `L` is
present. -/
theorem ensure_foldl_hasCol (L : List String) (g : String → Value) (df : DF)
    (c : String) (hc : c ∈ L) :
    (L.foldl (fun d c2 => if d.hasCol c2 then d else d.setColConst c2 (g c2)) df).hasCol c := by
  induction L generalizing df with
  | nil => cases hc
  | cons x xs ih =>
    rw [List.foldl_cons]
    rcases List.mem_cons.mp hc with h | h
    · subst h
      apply ensure_foldl_hasCol_mono
      split
      · assumption
      · exact DF.hasCol_setColConst_self df c _
    · exact ih _ h

/-! ## DataFrame row lemmas -/

theorem DF.rows_mapCol (df : DF) (c : String) (f : Value → Value) :
    (df.mapCol c f).rows = df.rows.map (DF.mapRowAt df.cols c f) := rfl

theorem DF.rows_filterRows (df : DF) (p : List String → List Value → Bool) :
    (df.filterRows p).rows = df.rows.filter (p df.cols) := rfl

theorem DF.rows_setColConst (df : DF) (c : String) (v : Value) :
    (df.setColConst c v).rows =
      if df.hasCol c then df.rows.map (DF.mapRowAt df.cols c (fun _ => v))
      else df.rows.map (fun r => r ++ [v]) := by
  rw [DF.setColConst]
  split <;> simp_all [DF.mapCol]

theorem DF.rows_setColFn (df : DF) (c : String) (f : List String → List Value → Value) :
    (df.setColFn c f).rows =
      if df.hasCol c then df.rows.map (fun r => DF.mapRowAt df.cols c (fun _ => f df.cols r) r)
      else df.rows.map (fun r => r ++ [f df.cols r]) := by
  rw [DF.setColFn]
  split <;> simp_all

theorem DF.rows_renameCols (df : DF) (m : List (String × String)) :
    (df.renameCols m).rows = df.rows := rfl

theorem DF.cols_renameCols (df : DF) (m : List (String × String)) :
    (df.renameCols m).cols =
      df.cols.map (fun c => match m.lookup c with | some d => d | none => c) := rfl

theorem readCsvRows_length (n : Nat) :
    ∀ (ls : List String) (rows : List (List Value)), readCsvRows n ls = some rows →
      ∀ r ∈ rows, r.length = n := by
  intro ls
  induction ls with
  | nil =>
    intro rows h r hr
    rw [readCsvRows] at h
    cases h
    cases hr
  | cons l ls ih =>
    intro rows h r hr
    rw [readCsvRows] at h
    by_cases hb : l = ""
    · rw [if_pos hb] at h
      exact ih rows h r hr
    · rw [if_neg hb] at h
      by_cases hlen : n < (csvSplit l).length
      · rw [if_pos hlen] at h
        cases h
      · rw [if_neg hlen] at h
        rcases hrec : readCsvRows n ls with _ | rs
        · rw [hrec] at h
          cases h
        · rw [hrec] at h
          cases h
          rcases List.mem_cons.mp hr with h2 | h2
          · subst h2
            simp
            omega
          · exact ih rs hrec r h2

theorem DF.hasCol_mk (cols : List String) (rows : List (List Value)) (c : String) :
    (DF.mk cols rows).hasCol c = cols.contains c := rfl

theorem DF.mapCol_mk (cols : List String) (rows : List (List Value)) (c : String) (f : Value → Value) :
    (DF.mk cols rows).mapCol c f = DF.mk cols (rows.map (DF.mapRowAt cols c f)) := rfl

theorem ensure_foldl_id (L : List String) (g : String → Value) (df : DF)
    (h : ∀ c ∈ L, df.hasCol c = true) :
    L.foldl (fun d c => if d.hasCol c then d else d.setColConst c (g c)) df = df := by
  induction L generalizing df with
  | nil => rfl
  | cons x xs ih =>
    rw [List.foldl_cons, if_pos (h x (by simp))]
    exact ih df (fun c hc => h c (by simp [hc]))

theorem mapcol_foldl_all (L : List String) (f : Value → Value) (df : DF)
    (h : ∀ c ∈ L, df.hasCol c = true) :
    L.foldl (fun d c => if d.hasCol c then d.mapCol c f else d) df =
      L.foldl (fun d c => d.mapCol c f) df := by
  induction L generalizing df with
  | nil => rfl
  | cons x xs ih =>
    rw [List.foldl_cons, List.foldl_cons, if_pos (h x (by simp))]
    exact ih (df.mapCol x f) (fun c hc => by
      rw [DF.hasCol, DF.cols_mapCol]
      exact h c (by simp [hc]))

theorem mapcol_foldl_all2 (L : List String) (f : Value → Value) (df : DF)
    (h : ∀ c ∈ L, df.hasCol c = true) :
    L.foldl (fun d c => if d.hasCol c then d.mapCol c f else d.setColConst c (.str "")) df =
      L.foldl (fun d c => d.mapCol c f) df := by
  induction L generalizing df with
  | nil => rfl
  | cons x xs ih =>
    rw [List.foldl_cons, List.foldl_cons, if_pos (h x (by simp))]
    exact ih (df.mapCol x f) (fun c hc => by
      rw [DF.hasCol, DF.cols_mapCol]
      exact h c (by simp [hc]))

theorem mapcol_foldl_all3 (L : List String) (f : Value → Value) (df : DF)
    (h : ∀ c ∈ L, df.hasCol c = true) :
    L.foldl (fun d c => if d.hasCol c then d.mapCol c f else d.setColConst c (.num (.finite 0))) df =
      L.foldl (fun d c => d.mapCol c f) df := by
  induction L generalizing df with
  | nil => rfl
  | cons x xs ih =>
    rw [List.foldl_cons, List.foldl_cons, if_pos (h x (by simp))]
    exact ih (df.mapCol x f) (fun c hc => by
      rw [DF.hasCol, DF.cols_mapCol]
      exact h c (by simp [hc]))

theorem mapcol_foldl_rows (L : List String) (f : Value → Value) (df : DF) :
    L.foldl (fun d c => d.mapCol c f) df =
      DF.mk df.cols (df.rows.map (fun r =>
        L.foldl (fun r2 c => DF.mapRowAt df.cols c f r2) r)) := by
  induction L generalizing df with
  | nil => simp
  | cons x xs ih =>
    rw [List.foldl_cons, ih, DF.cols_mapCol, DF.rows_mapCol, List.map_map]
    congr 1

theorem DF.setColConst_mk_absent (cols : List String) (rows : List (List Value))
    (c : String) (v : Value) (h : cols.contains c = false) :
    (DF.mk cols rows).setColConst c v = DF.mk (cols ++ [c]) (rows.map (fun r => r ++ [v])) := by
  rw [DF.setColConst, if_neg]
  rw [DF.hasCol_mk, h]
  simp

theorem DF.setColFn_mk_absent (cols : List String) (rows : List (List Value))
    (c : String) (f : List String → List Value → Value) (h : cols.contains c = false) :
    (DF.mk cols rows).setColFn c f = DF.mk (cols ++ [c]) (rows.map (fun r => r ++ [f cols r])) := by
  rw [DF.setColFn, if_neg]
  rw [DF.hasCol_mk, h]
  simp

theorem mapcol_foldl_rows_mk (L : List String) (f : Value → Value) (cols : List String)
    (rows : List (List Value)) :
    L.foldl (fun d c => d.mapCol c f) (DF.mk cols rows) =
      DF.mk cols (rows.map (fun r => L.foldl (fun r2 c => DF.mapRowAt cols c f r2) r)) :=
  mapcol_foldl_rows L f (DF.mk cols rows)

theorem stockNormalize_full_eq (rows : List (List Value)) :
    stockNormalize stockFullHeader rows =
      DF.mk (stockFullHeader ++ ["Valor Total Item"])
        (rows.map (fun r =>
          let r3 := DF.mapRowAt stockFullHeader "STOCK_MINIMO" coerceCell
            (stockNumericCols.foldl (fun r2 c => DF.mapRowAt stockFullHeader c coerceCell r2)
              (stockStringCols.foldl (fun r2 c => DF.mapRowAt stockFullHeader c cleanStrCell r2) r))
          r3 ++ [mulCell (fillna0 (DF.getCell stockFullHeader r3 "CantidadActual"))
                 (fillna0 (DF.getCell stockFullHeader r3 "CostoUnitario"))])) := by
  have hstr : ∀ c ∈ stockStringCols, stockFullHeader.contains c = true := by decide
  have hnum : ∀ c ∈ stockNumericCols, stockFullHeader.contains c = true := by decide
  have h1 : stockCleanStrings (DF.mk stockFullHeader rows) =
      DF.mk stockFullHeader (rows.map (fun r =>
        stockStringCols.foldl (fun r2 c => DF.mapRowAt stockFullHeader c cleanStrCell r2) r)) := by
    rw [stockCleanStrings,
      mapcol_foldl_all _ _ _ (fun c hc => by rw [DF.hasCol_mk]; exact hstr c hc),
      mapcol_foldl_rows_mk]
  have h2 : ∀ rs, stockAddMissingStrings (DF.mk stockFullHeader rs) = DF.mk stockFullHeader rs := by
    intro rs
    exact ensure_foldl_id _ _ _ (fun c hc => by rw [DF.hasCol_mk]; exact hstr c hc)
  have h3 : ∀ rs, stockCoerceNumerics (DF.mk stockFullHeader rs) =
      DF.mk stockFullHeader (rs.map (fun r =>
        stockNumericCols.foldl (fun r2 c => DF.mapRowAt stockFullHeader c coerceCell r2) r)) := by
    intro rs
    rw [stockCoerceNumerics,
      mapcol_foldl_all _ _ _ (fun c hc => by rw [DF.hasCol_mk]; exact hnum c hc),
      mapcol_foldl_rows_mk]
  have h4 : ∀ rs, stockHandleMin (DF.mk stockFullHeader rs) =
      DF.mk stockFullHeader (rs.map (DF.mapRowAt stockFullHeader "STOCK_MINIMO" coerceCell)) := by
    intro rs
    rw [stockHandleMin, if_pos (by rw [DF.hasCol_mk]; decide), DF.mapCol_mk]
  have h5 : ∀ rs, stockAddMissingNumerics (DF.mk stockFullHeader rs) = DF.mk stockFullHeader rs := by
    intro rs
    exact ensure_foldl_id _ _ _ (fun c hc => by rw [DF.hasCol_mk]; exact hnum c hc)
  have h6 : ∀ rs, stockDerive (DF.mk stockFullHeader rs) =
      DF.mk (stockFullHeader ++ ["Valor Total Item"]) (rs.map (fun r =>
        r ++ [mulCell (fillna0 (DF.getCell stockFullHeader r "CantidadActual"))
              (fillna0 (DF.getCell stockFullHeader r "CostoUnitario"))])) := by
    intro rs
    rw [stockDerive, DF.setColFn_mk_absent _ _ _ _ (by decide)]
  have h7 : ∀ rs, stockEnsureFinal (DF.mk (stockFullHeader ++ ["Valor Total Item"]) rs) =
      DF.mk (stockFullHeader ++ ["Valor Total Item"]) rs := by
    intro rs
    exact ensure_foldl_id _ _ _ (fun c hc => by
      rw [DF.hasCol_mk]
      revert hc
      revert c
      decide)
  rw [stockNormalize, h1, h2, h3, h4, h5, h6, h7, List.map_map, List.map_map, List.map_map]
  rfl

/-! ## The locator characterization -/

theorem getD_take_str (l : List String) (r k : Nat) (hk : k < r) :
    (l.take r).getD k "" = l.getD k "" := by
  induction l generalizing r k with
  | nil => simp
  | cons x xs ih =>
    cases r with
    | zero => omega
    | succ r =>
      cases k with
      | zero => simp
      | succ k => simpa using ih r k (by omega)

theorem fhrGo_none_iff (e : List String) :
    ∀ (ls : List String) (i : Nat),
      fhrGo e i ls = none ↔ ∀ k, k < ls.length → lineMatches e (ls.getD k "") = false := by
  intro ls
  induction ls with
  | nil =>
    intro i
    simp [fhrGo]
  | cons l ls ih =>
    intro i
    rw [fhrGo]
    by_cases h1 : pyStrip l = ""
    · rw [if_pos h1, ih]
      have hl : lineMatches e l = false := by simp [lineMatches, h1]
      constructor
      · intro H k hk
        cases k with
        | zero => exact hl
        | succ k => exact H k (by simpa using hk)
      · intro H k hk
        exact H (k + 1) (by simpa using hk)
    · rw [if_neg h1]
      by_cases h2 : cleanFields (csvSplit (pyStrip l)) = e
      · rw [if_pos h2]
        constructor
        · intro H
          cases H
        · intro H
          have h0 := H 0 (by simp)
          simp [lineMatches, h1, h2] at h0
      · rw [if_neg h2, ih]
        have hl : lineMatches e l = false := by simp [lineMatches, h1, h2]
        constructor
        · intro H k hk
          cases k with
          | zero => exact hl
          | succ k => exact H k (by simpa using hk)
        · intro H k hk
          exact H (k + 1) (by simpa using hk)

theorem fhrGo_some_iff (e : List String) :
    ∀ (ls : List String) (i j : Nat) (f : List String),
      fhrGo e i ls = some (j, f) ↔
        (f = e ∧ ∃ k, j = i + k ∧ k < ls.length ∧ lineMatches e (ls.getD k "") = true ∧
          ∀ m, m < k → lineMatches e (ls.getD m "") = false) := by
  intro ls
  induction ls with
  | nil =>
    intro i j f
    simp [fhrGo]
  | cons l ls ih =>
    intro i j f
    rw [fhrGo]
    by_cases h1 : pyStrip l = ""
    · rw [if_pos h1, ih]
      have hl : lineMatches e l = false := by simp [lineMatches, h1]
      constructor
      · rintro ⟨hf, k, hj, hk, hm, hbelow⟩
        refine ⟨hf, k + 1, by omega, by simpa using hk, by simpa using hm, ?_⟩
        intro m hm2
        cases m with
        | zero => exact hl
        | succ m => simpa using hbelow m (by omega)
      · rintro ⟨hf, k, hj, hk, hm, hbelow⟩
        cases k with
        | zero => simp [hl] at hm
        | succ k =>
          refine ⟨hf, k, by omega, by simpa using hk, by simpa using hm, ?_⟩
          intro m hm2
          simpa using hbelow (m + 1) (by omega)
    · rw [if_neg h1]
      by_cases h2 : cleanFields (csvSplit (pyStrip l)) = e
      · rw [if_pos h2]
        have hl : lineMatches e l = true := by simp [lineMatches, h1, h2]
        constructor
        · intro H
          injection H with H2
          injection H2 with Hj Hf
          subst Hj
          refine ⟨by rw [← Hf, h2], 0, by omega, by simp, by simpa using hl, ?_⟩
          intro m hm2
          omega
        · rintro ⟨hf, k, hj, hk, hm, hbelow⟩
          cases k with
          | zero =>
            subst hf
            rw [h2]
            simp [hj]
          | succ k =>
            have h0 := hbelow 0 (by omega)
            simp [hl] at h0
      · rw [if_neg h2, ih]
        have hl : lineMatches e l = false := by simp [lineMatches, h1, h2]
        constructor
        · rintro ⟨hf, k, hj, hk, hm, hbelow⟩
          refine ⟨hf, k + 1, by omega, by simpa using hk, by simpa using hm, ?_⟩
          intro m hm2
          cases m with
          | zero => exact hl
          | succ m => simpa using hbelow m (by omega)
        · rintro ⟨hf, k, hj, hk, hm, hbelow⟩
          cases k with
          | zero => simp [hl] at hm
          | succ k =>
            refine ⟨hf, k, by omega, by simpa using hk, by simpa using hm, ?_⟩
            intro m hm2
            simpa using hbelow (m + 1) (by omega)

theorem find_header_row_some_iff (content e : List String) (r j : Nat) (f : List String) :
    find_header_row content e r = some (j, f) ↔
      (f = e ∧ j < r ∧ j < content.length ∧ lineMatches e (content.getD j "") = true ∧
        ∀ m, m < j → lineMatches e (content.getD m "") = false) := by
  rw [find_header_row, fhrGo_some_iff]
  constructor
  · rintro ⟨hf, k, hj, hk, hm, hbelow⟩
    rw [List.length_take] at hk
    have hkr : k < r := by omega
    have hkl : k < content.length := by omega
    subst hj
    rw [getD_take_str content r k hkr] at hm
    refine ⟨hf, by omega, by omega, by simpa using hm, ?_⟩
    intro m hm2
    have := hbelow m (by omega)
    rwa [getD_take_str content r m (by omega)] at this
  · rintro ⟨hf, hjr, hjl, hm, hbelow⟩
    refine ⟨hf, j, by omega, ?_, ?_, ?_⟩
    · rw [List.length_take]
      omega
    · rwa [getD_take_str content r j hjr]
    · intro m hm2
      rw [getD_take_str content r m (by omega)]
      exact hbelow m hm2

theorem find_header_row_none_iff (content e : List String) (r : Nat) :
    find_header_row content e r = none ↔
      ∀ k, k < r → k < content.length → lineMatches e (content.getD k "") = false := by
  rw [find_header_row, fhrGo_none_iff]
  constructor
  · intro H k hkr hkl
    have := H k (by rw [List.length_take]; omega)
    rwa [getD_take_str content r k hkr] at this
  · intro H k hk
    rw [List.length_take] at hk
    rw [getD_take_str content r k (by omega)]
    exact H k (by omega) (by omega)

theorem stockDetect_full (content : List String) (i : Nat) (names : List String)
    (h : find_header_row content stockFullHeader 50 = some (i, names)) :
    stockDetect content = some (i, names, true) := by
  rw [stockDetect, h]

theorem stockDetect_fallback (content : List String)
    (h : find_header_row content stockFullHeader 50 = none) :
    stockDetect content = (find_header_row content stockNoMinHeader 50).map
      (fun p => (p.1, p.2, false)) := by
  rw [stockDetect, h]
  rcases find_header_row content stockNoMinHeader 50 with _ | ⟨j, names⟩ <;> rfl

/-! ## The coercer refinement -/

theorem sepRule_eq (u : List Char) :
    (if u.contains ',' ∧ u.contains '.' then
       let dec : Char := if pyRfind u '.' < pyRfind u ',' then ',' else '.'
       let other : Char := if dec = ',' then '.' else ','
       replaceChar (removeAll u other) dec '.'
     else if u.contains ',' then replaceChar u ',' '.' else u) =
    (if u.contains ',' ∧ u.contains '.' then
       if pyRfind u '.' < pyRfind u ',' then replaceChar (removeAll u '.') ',' '.'
       else removeAll u ','
     else if u.contains ',' then replaceChar u ',' '.' else u) := by
  by_cases h : (u.contains ',' = true ∧ u.contains '.' = true)
  · rw [if_pos h, if_pos h]
    by_cases h2 : pyRfind u '.' < pyRfind u ','
    · simp only [if_pos h2, reduceIte]
    · simp only [if_neg h2, reduceIte]
      exact replaceChar_self _ '.'
  · rw [if_neg h, if_neg h]

/-! ## Hard-failure behaviour of the three parsers -/

theorem parse_stock_none_iff (content : List String) :
    parse_stock_visma content = none ↔
      (find_header_row content stockFullHeader 50 = none ∧
       find_header_row content stockNoMinHeader 50 = none) := by
  rcases h1 : find_header_row content stockFullHeader 50 with _ | ⟨i, names⟩
  · rcases h2 : find_header_row content stockNoMinHeader 50 with _ | ⟨j, names2⟩
    · simp [parse_stock_visma, stockDetect, h1, h2]
    · simp only [parse_stock_visma, stockDetect, h1, h2]
      constructor
      · intro h
        split at h <;> cases h
      · rintro ⟨-, h⟩
        cases h
  · simp only [parse_stock_visma, stockDetect, h1]
    constructor
    · intro h
      split at h <;> cases h
    · rintro ⟨h, -⟩
      cases h

theorem parse_eco_none_iff (content : List String) :
    parse_eco_visma content = none ↔ find_header_row content ecoHeader 50 = none := by
  rcases h1 : find_header_row content ecoHeader 50 with _ | ⟨i, names⟩
  · simp [parse_eco_visma, h1]
  · simp only [parse_eco_visma, h1]
    constructor
    · intro h
      split at h <;> cases h
    · intro h
      cases h

theorem parse_fuel_isSome (content : List String) : (parse_fuel_log content).isSome = true := by
  rw [parse_fuel_log]
  rcases (fuelScan content).headerIdx with _ | i
  · rfl
  · simp only
    rcases readCsvBlock (content.drop i) with _ | dfRaw
    · rfl
    · simp only
      split <;> rfl

/-! ## The budget grid -/

theorem mapping_mem (s k : String) (h : category_mapping_to_internal_key s = some k) :
    k ∈ ecoInternalKeys := by
  rw [category_mapping_to_internal_key] at h
  split_ifs at h <;> simp_all [ecoInternalKeys]

theorem ecoAdd_inv (g : EcoData) (k key : String) (w v : PyFloat)
    (hk : k ∈ ecoInternalKeys) :
    (ecoAdd g k w v).inv key = if k = key then (g.inv key).add w else g.inv key := by
  simp only [ecoInternalKeys, List.mem_cons, List.not_mem_nil, or_false] at hk
  rcases hk with rfl | rfl | rfl | rfl <;>
    (rw [ecoAdd]; simp only [EcoData.inv]; split_ifs <;> first | rfl | (exfalso; simp_all))

theorem ecoAdd_ver (g : EcoData) (k key : String) (w v : PyFloat)
    (hk : k ∈ ecoInternalKeys) :
    (ecoAdd g k w v).ver key = if k = key then (g.ver key).add v else g.ver key := by
  simp only [ecoInternalKeys, List.mem_cons, List.not_mem_nil, or_false] at hk
  rcases hk with rfl | rfl | rfl | rfl <;>
    (rw [ecoAdd]; simp only [EcoData.ver]; split_ifs <;> first | rfl | (exfalso; simp_all))

theorem ecoAccum_go_inv (key : String) (rows : List (String × PyFloat × PyFloat)) :
    ∀ g : EcoData,
      (rows.foldl (fun g r =>
        match category_mapping_to_internal_key r.1 with
        | some k => if ecoInternalKeys.contains k then ecoAdd g k r.2.1 r.2.2 else g
        | none => g) g).inv key =
      (rows.filterMap (fun r =>
        if category_mapping_to_internal_key r.1 = some key then some r.2.1 else none)).foldl
        PyFloat.add (g.inv key) := by
  induction rows with
  | nil =>
    intro g
    rfl
  | cons r rs ih =>
    intro g
    rw [List.foldl_cons, List.filterMap_cons]
    rcases hm : category_mapping_to_internal_key r.1 with _ | k
    · simp only [hm]
      simp only [reduceCtorEq, if_neg (by simp : ¬(none : Option String) = some key)]
      exact ih g
    · simp only [hm]
      have hk := mapping_mem _ _ hm
      have hc : ecoInternalKeys.contains k = true := by simpa using hk
      rw [if_pos hc]
      by_cases hkey : k = key
      · subst hkey
        rw [if_pos rfl, List.foldl_cons, ih, ecoAdd_inv _ _ _ _ _ hk, if_pos rfl]
      · rw [if_neg (by simpa using hkey), ih, ecoAdd_inv _ _ _ _ _ hk, if_neg hkey]

theorem ecoAccum_go_ver (key : String) (rows : List (String × PyFloat × PyFloat)) :
    ∀ g : EcoData,
      (rows.foldl (fun g r =>
        match category_mapping_to_internal_key r.1 with
        | some k => if ecoInternalKeys.contains k then ecoAdd g k r.2.1 r.2.2 else g
        | none => g) g).ver key =
      (rows.filterMap (fun r =>
        if category_mapping_to_internal_key r.1 = some key then some r.2.2 else none)).foldl
        PyFloat.add (g.ver key) := by
  induction rows with
  | nil =>
    intro g
    rfl
  | cons r rs ih =>
    intro g
    rw [List.foldl_cons, List.filterMap_cons]
    rcases hm : category_mapping_to_internal_key r.1 with _ | k
    · simp only [hm]
      simp only [reduceCtorEq, if_neg (by simp : ¬(none : Option String) = some key)]
      exact ih g
    · simp only [hm]
      have hk := mapping_mem _ _ hm
      have hc : ecoInternalKeys.contains k = true := by simpa using hk
      rw [if_pos hc]
      by_cases hkey : k = key
      · subst hkey
        rw [if_pos rfl, List.foldl_cons, ih, ecoAdd_ver _ _ _ _ _ hk, if_pos rfl]
      · rw [if_neg (by simpa using hkey), ih, ecoAdd_ver _ _ _ _ _ hk, if_neg hkey]

theorem zeroEco_inv (key : String) : zeroEco.inv key = .finite 0 := by
  rw [EcoData.inv]
  split_ifs <;> rfl

theorem zeroEco_ver (key : String) : zeroEco.ver key = .finite 0 := by
  rw [EcoData.ver]
  split_ifs <;> rfl

theorem parse_eco_eq_accum (content : List String) (i : Nat) (names : List String)
    (h : find_header_row content ecoHeader 50 = some (i, names)) :
    parse_eco_visma content = some (ecoAccum
      ((materializeEcoRows (content.drop (i + 1)) names.length).map ecoCleanRow)) := by
  rw [parse_eco_visma, h]
  dsimp only
  by_cases he : (materializeEcoRows (content.drop (i + 1)) names.length).isEmpty
  · rw [if_pos he]
    rw [List.isEmpty_iff] at he
    rw [he]
    rfl
  · rw [if_neg he]

/-! ## Row-level evaluation of the stock pipeline (fallback-header branch) -/

theorem stockNormalize_nomin_eq (rows : List (List Value)) :
    stockNormalize stockNoMinHeader rows =
      DF.mk ((stockNoMinHeader ++ ["STOCK_MINIMO"]) ++ ["Valor Total Item"])
        (rows.map (fun r =>
          let r3 := (stockNumericCols.foldl (fun r2 c => DF.mapRowAt stockNoMinHeader c coerceCell r2)
              (stockStringCols.foldl (fun r2 c => DF.mapRowAt stockNoMinHeader c cleanStrCell r2) r)) ++
            [Value.num (.finite 0)]
          r3 ++ [mulCell (fillna0 (DF.getCell (stockNoMinHeader ++ ["STOCK_MINIMO"]) r3 "CantidadActual"))
                 (fillna0 (DF.getCell (stockNoMinHeader ++ ["STOCK_MINIMO"]) r3 "CostoUnitario"))])) := by
  have hstr : ∀ c ∈ stockStringCols, stockNoMinHeader.contains c = true := by decide
  have hnum : ∀ c ∈ stockNumericCols, stockNoMinHeader.contains c = true := by decide
  have h1 : stockCleanStrings (DF.mk stockNoMinHeader rows) =
      DF.mk stockNoMinHeader (rows.map (fun r =>
        stockStringCols.foldl (fun r2 c => DF.mapRowAt stockNoMinHeader c cleanStrCell r2) r)) := by
    rw [stockCleanStrings,
      mapcol_foldl_all _ _ _ (fun c hc => by rw [DF.hasCol_mk]; exact hstr c hc),
      mapcol_foldl_rows_mk]
  have h2 : ∀ rs, stockAddMissingStrings (DF.mk stockNoMinHeader rs) = DF.mk stockNoMinHeader rs := by
    intro rs
    exact ensure_foldl_id _ _ _ (fun c hc => by rw [DF.hasCol_mk]; exact hstr c hc)
  have h3 : ∀ rs, stockCoerceNumerics (DF.mk stockNoMinHeader rs) =
      DF.mk stockNoMinHeader (rs.map (fun r =>
        stockNumericCols.foldl (fun r2 c => DF.mapRowAt stockNoMinHeader c coerceCell r2) r)) := by
    intro rs
    rw [stockCoerceNumerics,
      mapcol_foldl_all _ _ _ (fun c hc => by rw [DF.hasCol_mk]; exact hnum c hc),
      mapcol_foldl_rows_mk]
  have h4 : ∀ rs, stockHandleMin (DF.mk stockNoMinHeader rs) =
      DF.mk (stockNoMinHeader ++ ["STOCK_MINIMO"])
        (rs.map (fun r => r ++ [Value.num (.finite 0)])) := by
    intro rs
    rw [stockHandleMin, if_neg (by rw [DF.hasCol_mk]; decide),
      DF.setColConst_mk_absent _ _ _ _ (by decide)]
  have h5 : ∀ rs, stockAddMissingNumerics (DF.mk (stockNoMinHeader ++ ["STOCK_MINIMO"]) rs) =
      DF.mk (stockNoMinHeader ++ ["STOCK_MINIMO"]) rs := by
    intro rs
    refine ensure_foldl_id _ _ _ (fun c hc => by
      rw [DF.hasCol_mk]
      revert hc
      revert c
      decide)
  have h6 : ∀ rs, stockDerive (DF.mk (stockNoMinHeader ++ ["STOCK_MINIMO"]) rs) =
      DF.mk ((stockNoMinHeader ++ ["STOCK_MINIMO"]) ++ ["Valor Total Item"]) (rs.map (fun r =>
        r ++ [mulCell (fillna0 (DF.getCell (stockNoMinHeader ++ ["STOCK_MINIMO"]) r "CantidadActual"))
              (fillna0 (DF.getCell (stockNoMinHeader ++ ["STOCK_MINIMO"]) r "CostoUnitario"))])) := by
    intro rs
    rw [stockDerive, DF.setColFn_mk_absent _ _ _ _ (by decide)]
  have h7 : ∀ rs, stockEnsureFinal (DF.mk ((stockNoMinHeader ++ ["STOCK_MINIMO"]) ++ ["Valor Total Item"]) rs) =
      DF.mk ((stockNoMinHeader ++ ["STOCK_MINIMO"]) ++ ["Valor Total Item"]) rs := by
    intro rs
    exact ensure_foldl_id _ _ _ (fun c hc => by
      rw [DF.hasCol_mk]
      revert hc
      revert c
      decide)
  rw [stockNormalize, h1, h2, h3, h4, h5, h6, h7, List.map_map, List.map_map, List.map_map]
  rfl

/-! ## Row-level evaluation of the fuel pipeline (8-column read branch) -/

theorem fuelNormalize_eq (mapping : List (String × String)) (dfRaw : DF)
    (h8 : dfRaw.cols.length = 8) :
    fuelNormalize mapping dfRaw =
      DF.mk (((fuelDataHeader ++ ["Hs/Km_Numeric"]) ++ ["Costo Total Egreso"]) ++ ["Tipo de Comb."])
        (dfRaw.rows.map (fun r =>
          let r2 := fuelNumericCols.foldl (fun r2 c => DF.mapRowAt fuelDataHeader c coerceCell r2)
            (fuelStringCols.foldl (fun r2 c => DF.mapRowAt fuelDataHeader c cleanStrCell r2)
              (DF.mapRowAt fuelDataHeader "Fecha" dateCell r))
          let r4 := DF.mapRowAt (fuelDataHeader ++ ["Hs/Km_Numeric"]) "Hs/Km_Numeric" fillna0
            (r2 ++ [coerceCell (DF.getCell fuelDataHeader r2 "HsKm")])
          let r5 := r4 ++
            [mulCell (fillna0 (DF.getCell (fuelDataHeader ++ ["Hs/Km_Numeric"]) r4 "LtsEgreso"))
             (fillna0 (DF.getCell (fuelDataHeader ++ ["Hs/Km_Numeric"]) r4 "CostoUnitarioLt"))]
          let r6 := DF.mapRowAt ((fuelDataHeader ++ ["Hs/Km_Numeric"]) ++ ["Costo Total Egreso"])
            "CodigoCombustible" cleanStrCell r5
          r6 ++ [fuelTypeCell mapping
            (DF.getCell ((fuelDataHeader ++ ["Hs/Km_Numeric"]) ++ ["Costo Total Egreso"]) r6
              "CodigoCombustible")])) := by
  have hstr : ∀ c ∈ fuelStringCols, fuelDataHeader.contains c = true := by decide
  have hnum : ∀ c ∈ fuelNumericCols, fuelDataHeader.contains c = true := by decide
  have h0 : fuelRename dfRaw = DF.mk fuelDataHeader dfRaw.rows := by
    rw [fuelRename, if_pos]
    rw [h8]
    rfl
  have h1 : ∀ rs, fuelDates (DF.mk fuelDataHeader rs) =
      DF.mk fuelDataHeader (rs.map (DF.mapRowAt fuelDataHeader "Fecha" dateCell)) := by
    intro rs
    rw [fuelDates, if_pos (by rw [DF.hasCol_mk]; decide), DF.mapCol_mk]
  have h2 : ∀ rs, fuelCleanStrings (DF.mk fuelDataHeader rs) =
      DF.mk fuelDataHeader (rs.map (fun r =>
        fuelStringCols.foldl (fun r2 c => DF.mapRowAt fuelDataHeader c cleanStrCell r2) r)) := by
    intro rs
    rw [fuelCleanStrings,
      mapcol_foldl_all2 _ _ _ (fun c hc => by rw [DF.hasCol_mk]; exact hstr c hc),
      mapcol_foldl_rows_mk]
  have h3 : ∀ rs, fuelCoerceNumerics (DF.mk fuelDataHeader rs) =
      DF.mk fuelDataHeader (rs.map (fun r =>
        fuelNumericCols.foldl (fun r2 c => DF.mapRowAt fuelDataHeader c coerceCell r2) r)) := by
    intro rs
    rw [fuelCoerceNumerics,
      mapcol_foldl_all3 _ _ _ (fun c hc => by rw [DF.hasCol_mk]; exact hnum c hc),
      mapcol_foldl_rows_mk]
  have h4 : ∀ rs, fuelHsKm (DF.mk fuelDataHeader rs) =
      DF.mk (fuelDataHeader ++ ["Hs/Km_Numeric"]) ((rs.map (fun r =>
        r ++ [coerceCell (DF.getCell fuelDataHeader r "HsKm")])).map
          (DF.mapRowAt (fuelDataHeader ++ ["Hs/Km_Numeric"]) "Hs/Km_Numeric" fillna0)) := by
    intro rs
    rw [fuelHsKm, DF.setColFn_mk_absent _ _ _ _ (by decide), DF.mapCol_mk]
  have h5 : ∀ rs, fuelDerive (DF.mk (fuelDataHeader ++ ["Hs/Km_Numeric"]) rs) =
      DF.mk ((fuelDataHeader ++ ["Hs/Km_Numeric"]) ++ ["Costo Total Egreso"]) (rs.map (fun r =>
        r ++ [mulCell (fillna0 (DF.getCell (fuelDataHeader ++ ["Hs/Km_Numeric"]) r "LtsEgreso"))
              (fillna0 (DF.getCell (fuelDataHeader ++ ["Hs/Km_Numeric"]) r "CostoUnitarioLt"))])) := by
    intro rs
    rw [fuelDerive, if_pos (by constructor <;> (rw [DF.hasCol_mk]; decide)),
      DF.setColFn_mk_absent _ _ _ _ (by decide)]
  have h6 : ∀ rs, fuelCategory mapping
      (DF.mk ((fuelDataHeader ++ ["Hs/Km_Numeric"]) ++ ["Costo Total Egreso"]) rs) =
      DF.mk ((((fuelDataHeader ++ ["Hs/Km_Numeric"]) ++ ["Costo Total Egreso"])) ++ ["Tipo de Comb."])
        ((rs.map (DF.mapRowAt ((fuelDataHeader ++ ["Hs/Km_Numeric"]) ++ ["Costo Total Egreso"])
            "CodigoCombustible" cleanStrCell)).map (fun r =>
          r ++ [fuelTypeCell mapping
            (DF.getCell ((fuelDataHeader ++ ["Hs/Km_Numeric"]) ++ ["Costo Total Egreso"]) r
              "CodigoCombustible")])) := by
    intro rs
    rw [fuelCategory, if_pos (by rw [DF.hasCol_mk]; decide), DF.mapCol_mk,
      DF.setColFn_mk_absent _ _ _ _ (by decide)]
  rw [fuelNormalize, h0, h1, h2, h3, h4, h5, h6, List.map_map, List.map_map, List.map_map,
    List.map_map, List.map_map, List.map_map, List.map_map]
  rfl

theorem DF.filterRows_mk (cols : List String) (rows : List (List Value))
    (p : List String → List Value → Bool) :
    (DF.mk cols rows).filterRows p = DF.mk cols (rows.filter (p cols)) := rfl

theorem DF.selectCols_mk (cols : List String) (rows : List (List Value)) (sel : List String) :
    (DF.mk cols rows).selectCols sel =
      DF.mk (sel.filter (fun c => cols.contains c))
        (rows.map (fun r => (sel.filter (fun c => cols.contains c)).map
          (fun c => DF.getCell cols r c))) := rfl

theorem fuelFilter_eq (rs : List (List Value)) :
    fuelFilter (DF.mk (((fuelDataHeader ++ ["Hs/Km_Numeric"]) ++ ["Costo Total Egreso"]) ++
        ["Tipo de Comb."]) rs) =
      DF.mk (((fuelDataHeader ++ ["Hs/Km_Numeric"]) ++ ["Costo Total Egreso"]) ++ ["Tipo de Comb."])
        (((rs.filter (fun r => notnaCell (DF.getCell (((fuelDataHeader ++ ["Hs/Km_Numeric"]) ++
            ["Costo Total Egreso"]) ++ ["Tipo de Comb."]) r "Fecha"))).filter
          (fun r => nonEmptyStrCell (DF.getCell (((fuelDataHeader ++ ["Hs/Km_Numeric"]) ++
            ["Costo Total Egreso"]) ++ ["Tipo de Comb."]) r "Equipo"))).filter
          (fun r => nonEmptyStrCell (DF.getCell (((fuelDataHeader ++ ["Hs/Km_Numeric"]) ++
            ["Costo Total Egreso"]) ++ ["Tipo de Comb."]) r "CodigoCombustible"))) := by
  rw [fuelFilter, fuelFilterDate, if_pos (by rw [DF.hasCol_mk]; decide), DF.filterRows_mk,
    fuelFilterEquipo, if_pos (by rw [DF.hasCol_mk]; decide), DF.filterRows_mk,
    fuelFilterCodigo, if_pos (by rw [DF.hasCol_mk]; decide), DF.filterRows_mk]

theorem fuelFinalize_eq (rs : List (List Value)) :
    fuelFinalize (DF.mk (((fuelDataHeader ++ ["Hs/Km_Numeric"]) ++ ["Costo Total Egreso"]) ++
        ["Tipo de Comb."]) rs) =
      DF.mk fuelInternalCols
        (rs.map (fun r => fuelInternalCols.map (fun c => DF.getCell
          ["Fecha", "Equipo/Int.", "Codigo", "Lts Ingreso", "Lts Egreso", "HsKm",
           "Comentarios", "Costo Unitario Lt", "Hs/Km_Numeric", "Costo Total Egreso",
           "Tipo de Comb."] r c))) := by
  have h1 : (DF.mk (((fuelDataHeader ++ ["Hs/Km_Numeric"]) ++ ["Costo Total Egreso"]) ++
      ["Tipo de Comb."]) rs).renameCols fuelRenameMap =
      DF.mk ["Fecha", "Equipo/Int.", "Codigo", "Lts Ingreso", "Lts Egreso", "HsKm",
        "Comentarios", "Costo Unitario Lt", "Hs/Km_Numeric", "Costo Total Egreso",
        "Tipo de Comb."] rs := rfl
  have h2 : ∀ rs2, fuelEnsureInternal (DF.mk ["Fecha", "Equipo/Int.", "Codigo", "Lts Ingreso",
      "Lts Egreso", "HsKm", "Comentarios", "Costo Unitario Lt", "Hs/Km_Numeric",
      "Costo Total Egreso", "Tipo de Comb."] rs2) =
      DF.mk ["Fecha", "Equipo/Int.", "Codigo", "Lts Ingreso", "Lts Egreso", "HsKm",
        "Comentarios", "Costo Unitario Lt", "Hs/Km_Numeric", "Costo Total Egreso",
        "Tipo de Comb."] rs2 := by
    intro rs2
    exact ensure_foldl_id _ _ _ (fun c hc => by
      rw [DF.hasCol_mk]
      revert hc
      revert c
      decide)
  rw [fuelFinalize, h1, h2, DF.selectCols_mk,
    show (fuelInternalCols.filter (fun c => (["Fecha", "Equipo/Int.", "Codigo", "Lts Ingreso",
      "Lts Egreso", "HsKm", "Comentarios", "Costo Unitario Lt", "Hs/Km_Numeric",
      "Costo Total Egreso", "Tipo de Comb."] : List String).contains c)) = fuelInternalCols
      from by decide]

theorem stockFilter_eq (rs : List (List Value)) :
    stockFilter (DF.mk (stockFullHeader ++ ["Valor Total Item"]) rs) =
      DF.mk (stockFullHeader ++ ["Valor Total Item"])
        (rs.filter (fun r =>
          DF.getCell (stockFullHeader ++ ["Valor Total Item"]) r "Codigo" ≠ .str "" ∧
          DF.getCell (stockFullHeader ++ ["Valor Total Item"]) r "Categoria" ≠ .str "")) := by
  rw [stockFilter, if_pos ⟨by rw [DF.hasCol_mk]; decide, by rw [DF.hasCol_mk]; decide⟩,
    DF.filterRows_mk]

theorem DF.records_mk (cols : List String) (rows : List (List Value)) :
    (DF.mk cols rows).records = rows.map (fun r => cols.zip r) := rfl

/-! # The claims -/

/-- C1.  The numeric coercer `safe_float_parse` is a total function equal to
the spec's five-rule reference definition `coerceSpec`: absent inputs,
inputs empty after trimming and the case-sensitive sentinels return `0.0`;
whitespace and `$` are stripped; with both `,` and `.` present the
last-occurring separator is the decimal point and the other is removed; a
lone `,` becomes the decimal point and a lone `.` is kept; an empty or
bare-sign remainder returns `0.0`; any failure of the final float parse
returns `0.0`.  In particular `coerce("1.250,50") = coerce("1,250.50") =
1250.50` and `coerce("") = coerce("-") = coerce("$") = coerce(None) =
0.0`. -/
theorem claim_C1 :
    (∀ x : Option String, safe_float_parse x = coerceSpec x) ∧
    safe_float_parse (some "1.250,50") = .finite (mkRat 125050 100) ∧
    safe_float_parse (some "1,250.50") = .finite (mkRat 125050 100) ∧
    mkRat 125050 100 = (1250.50 : ℚ) ∧
    safe_float_parse (some "") = .finite 0 ∧
    safe_float_parse (some "-") = .finite 0 ∧
    safe_float_parse (some "$") = .finite 0 ∧
    safe_float_parse none = .finite 0 := by
  refine ⟨?_, by decide, by decide, by rw [Rat.mkRat_eq_div]; norm_num,
    by decide, by decide, by decide, rfl⟩
  intro x
  cases x with
  | none => rfl
  | some s =>
    by_cases hs : sentinelStrings.contains (pyStrip s)
    · have h2 : (pyStrip s = "" ∨ sentinelStrings.contains (pyStrip s) = true) := Or.inr hs
      simp only [safe_float_parse, coerceSpec]
      rw [if_pos hs, if_pos h2]
    · have hne : ¬(pyStrip s = "" ∨ sentinelStrings.contains (pyStrip s) = true) := by
        rintro (h | h)
        · apply hs
          rw [h]
          decide
        · exact hs h
      simp only [safe_float_parse, coerceSpec]
      rw [if_neg hs, if_neg hne]
      rw [← sepRule_eq]

/-- C10.  The sentinel list is case-sensitive (it contains only the
lower-case `'nan'`), so spellings accepted by `float()` such as `"NaN"`,
`"NAN"`, `"inf"`, `"Infinity"` survive cleanup and parse to non-finite
values: `safe_float_parse("NaN")` is NaN and `safe_float_parse("inf")` is
positive infinity — and such values flow into the derived totals, e.g. a
stock row with quantity `inf` gets `Valor Total Item = inf`. -/
theorem claim_C10 :
    sentinelStrings.contains "nan" = true ∧
    sentinelStrings.contains "NaN" = false ∧
    safe_float_parse (some "nan") = .finite 0 ∧
    safe_float_parse (some "NaN") = .nan ∧
    safe_float_parse (some "NAN") = .nan ∧
    safe_float_parse (some "inf") = .inf ∧
    safe_float_parse (some "Infinity") = .inf ∧
    (parse_stock_visma
      ["Codigo,Producto,Categoria,CantidadActual,CostoUnitario,Ubicacion,STOCK_MINIMO",
       "A1,Prod,Cat,inf,2.0,Dep,0"]).map (fun df => df.rows) =
      some [[.str "A1", .str "Prod", .str "Cat", .num .inf, .num (.finite (mkRat 2 1)),
             .num .inf, .str "Dep", .num (.finite 0)]] := by
  refine ⟨by decide, by decide, by decide, by decide, by decide, by decide, by decide, by decide⟩

/-- C2 counterexample.  The claim says each of the three parsers returns the
hard-failure marker `None` when no header is found in the scan window — but
the fuel-log parser does not: on a file with no data header it returns the
empty structured frame with the collected balances (source lines 481-488),
a value distinct from `none`, while its scan did fail to find the header. -/
theorem claim_C2_counterexample :
    (fuelScan ["garbage"]).headerIdx = none ∧
    parse_fuel_log ["garbage"] =
      some (⟨fuelTemplateCols, []⟩, (.finite 0, .finite 0)) := by
  constructor <;> decide

/-- C2 (amended).  Stock and budget return the hard-failure marker exactly
when no candidate header is found in the 50-line window; the fuel-log parser
never returns the marker (a missing header yields the empty structured frame
plus the collected balances); and for all three, a found header with no
usable data rows yields an empty-but-structured success value, e.g. on the
concrete header-only files below. -/
theorem claim_C2 :
    (∀ content, parse_stock_visma content = none ↔
      (find_header_row content stockFullHeader 50 = none ∧
       find_header_row content stockNoMinHeader 50 = none)) ∧
    (∀ content, parse_eco_visma content = none ↔
      find_header_row content ecoHeader 50 = none) ∧
    (∀ content, (parse_fuel_log content).isSome = true) ∧
    parse_stock_visma
      ["Codigo,Producto,Categoria,CantidadActual,CostoUnitario,Ubicacion,STOCK_MINIMO"] =
      some ⟨stockFinalCols, []⟩ ∧
    parse_eco_visma ["Categoria,Invierno,Verano"] = some zeroEco ∧
    parse_fuel_log
      ["Fecha,Equipo,CodigoCombustible,LtsIngreso,LtsEgreso,HsKm,Comentarios,CostoUnitarioLt"] =
      some (⟨fuelTemplateCols, []⟩, (.finite 0, .finite 0)) := by
  exact ⟨parse_stock_none_iff, parse_eco_none_iff, parse_fuel_isSome,
    by decide, by decide, by decide⟩

/-- C3 counterexample.  The claim reads the locator as returning the first
scanned line whose field list equals *some* candidate; but the stock
detection tries the full 7-column candidate over the whole window before the
6-column fallback: on a file whose line 0 is the 6-column header and line 1
the 7-column header, line 0 matches a candidate yet the detector returns
line 1 with the full candidate. -/
theorem claim_C3_counterexample :
    lineMatches stockNoMinHeader
      ((["Codigo,Producto,Categoria,CantidadActual,CostoUnitario,Ubicacion",
         "Codigo,Producto,Categoria,CantidadActual,CostoUnitario,Ubicacion,STOCK_MINIMO"] :
        List String).getD 0 "") = true ∧
    stockDetect
      ["Codigo,Producto,Categoria,CantidadActual,CostoUnitario,Ubicacion",
       "Codigo,Producto,Categoria,CantidadActual,CostoUnitario,Ubicacion,STOCK_MINIMO"] =
      some (1, stockFullHeader, true) := by
  constructor <;> decide

/-- C3 (amended).  `find_header_row` scans at most `window` lines, skips
blank lines, tokenizes with quoted-comma splitting, trims every field
(stripping a leading BOM), and returns the first scanned line exactly equal
to the given candidate, reporting the matched fields; it reports not-found
iff no line in the window matches.  Candidates are tried in priority order
*candidate-major*: the stock detector scans the whole window for the full
7-column candidate first and consults the 6-column fallback only if that
scan fails.  The claim's two concrete examples hold. -/
theorem claim_C3 :
    (∀ (content e : List String) (r j : Nat) (f : List String),
      find_header_row content e r = some (j, f) ↔
        (f = e ∧ j < r ∧ j < content.length ∧ lineMatches e (content.getD j "") = true ∧
          ∀ m, m < j → lineMatches e (content.getD m "") = false)) ∧
    (∀ (content e : List String) (r : Nat),
      find_header_row content e r = none ↔
        ∀ k, k < r → k < content.length → lineMatches e (content.getD k "") = false) ∧
    (∀ content i names, find_header_row content stockFullHeader 50 = some (i, names) →
      stockDetect content = some (i, names, true)) ∧
    (∀ content, find_header_row content stockFullHeader 50 = none →
      stockDetect content = (find_header_row content stockNoMinHeader 50).map
        (fun p => (p.1, p.2, false))) ∧
    stockDetect ["junk",
      "Codigo,Producto,Categoria,CantidadActual,CostoUnitario,Ubicacion,STOCK_MINIMO",
      "ABC,x,y,1,2,z,0"] = some (1, stockFullHeader, true) ∧
    stockDetect ["junk",
      "Codigo,Producto,Categoria,CantidadActual,CostoUnitario,Ubicacion",
      "ABC,x,y,1,2,z"] = some (1, stockNoMinHeader, false) := by
  exact ⟨find_header_row_some_iff, find_header_row_none_iff, stockDetect_full,
    stockDetect_fallback, by decide, by decide⟩

/-- C3 witness: the characterizations applied at a concrete file. -/
theorem claim_C3_witness :
    find_header_row ["junk", "A,B", "x"] ["A", "B"] 50 = some (1, ["A", "B"]) ∧
    (["A", "B"] : List String) = ["A", "B"] ∧ 1 < 50 ∧ 1 < 3 ∧
    lineMatches ["A", "B"] ((["junk", "A,B", "x"] : List String).getD 1 "") = true ∧
    stockDetect ["Codigo,Producto,Categoria,CantidadActual,CostoUnitario,Ubicacion,STOCK_MINIMO"] =
      some (0, stockFullHeader, true) := by
  refine ⟨?_, rfl, by omega, by omega, by decide, ?_⟩
  · exact (claim_C3.1 ["junk", "A,B", "x"] ["A", "B"] 50 1 ["A", "B"]).mpr
      ⟨rfl, by omega, by decide, by decide, by
        intro m hm
        interval_cases m
        decide⟩
  · exact claim_C3.2.2.1 _ 0 stockFullHeader (by decide)

theorem materializeRows_count (lines : List String) (n : Nat) :
    (materializeRows lines n).length = (lines.filter (fun l => pyStrip l ≠ "")).length := by
  induction lines with
  | nil => rfl
  | cons l ls ih =>
    simp only [materializeRows, List.filterMap_cons, List.filter_cons] at ih ⊢
    by_cases hb : pyStrip l = ""
    · simp only [hb, reduceIte, decide_not]
      simpa using ih
    · simp only [hb, reduceIte, decide_not]
      simp only [List.length_cons, decide_eq_false hb, Bool.not_false, if_true]
      simpa using ih

/-- C4 counterexample.  The claim says every file kind pads short data rows
with empty fields and never drops them — but the budget parser skips any
row whose field count differs from 3 (source lines 313-315): the 2-field
row `Movilizacion,100` is dropped entirely, leaving the zero grid, where
padding would have produced a `Movilizacion` winter cell of 100. -/
theorem claim_C4_counterexample :
    (csvSplit "Movilizacion,100").length = 2 ∧
    parse_eco_visma ["Categoria,Invierno,Verano", "Movilizacion,100"] = some zeroEco ∧
    zeroEco.invMov = .finite 0 := by
  refine ⟨by decide, by decide, rfl⟩

/-- C4 (amended).  Row materialization is per-file-kind: the *stock* parser
tokenizes each non-blank post-header line, pads short token lists with empty
strings and truncates long ones to the header's field count — one row per
non-blank line, never dropping a row, and independently line by line; the
*budget* parser instead skips any data row whose field count differs from
the header's; the *fuel-log* parser reads the block in one pass in which a
row's missing trailing fields become missing values (NaN), not empty
strings. -/
theorem claim_C4 :
    (∀ fields n, (padTruncFields fields n).length = n) ∧
    (∀ fields n, fields.length < n →
      padTruncFields fields n = fields ++ List.replicate (n - fields.length) "") ∧
    (∀ fields n, ¬ fields.length < n → padTruncFields fields n = fields.take n) ∧
    (∀ lines n, (materializeRows lines n).length =
      (lines.filter (fun l => pyStrip l ≠ "")).length) ∧
    (∀ xs ys n, materializeRows (xs ++ ys) n = materializeRows xs n ++ materializeRows ys n) ∧
    (∀ lines n, ∀ r ∈ materializeRows lines n, r.length = n) ∧
    (∀ lines n, ∀ r ∈ materializeEcoRows lines n, r.length = n) ∧
    (∀ n ls rows, readCsvRows n ls = some rows → ∀ r ∈ rows, r.length = n) ∧
    readCsvRows 3 ["a,b"] = some [[.str "a", .str "b", .num .nan]] := by
  refine ⟨fun fields n => padTruncFields_length fields n,
    fun fields n h => by rw [padTruncFields, if_pos h],
    fun fields n h => by rw [padTruncFields, if_neg h],
    materializeRows_count,
    fun xs ys n => by rw [materializeRows, materializeRows, materializeRows,
      List.filterMap_append],
    materializeRows_length,
    ?_, readCsvRows_length, by decide⟩
  intro lines n r hr
  rw [materializeEcoRows, List.mem_filterMap] at hr
  obtain ⟨l, _, hl⟩ := hr
  by_cases hb : pyStrip l = ""
  · simp [hb] at hl
  · rw [if_neg hb] at hl
    by_cases hn : (csvSplit (pyStrip l)).length ≠ n
    · simp [hn] at hl
    · rw [if_neg hn] at hl
      cases hl
      simpa using hn

/-- C4 witness: the padding, truncation, counting and fuel-fill facts at
concrete inputs. -/
theorem claim_C4_witness :
    (padTruncFields ["a"] 3).length = 3 ∧
    padTruncFields ["a"] 3 = ["a"] ++ List.replicate 2 "" ∧
    padTruncFields ["a", "b", "c", "d"] 3 = ["a", "b", "c"] ∧
    (materializeRows ["a,b", "", "c"] 3).length = 2 ∧
    (∀ r ∈ materializeEcoRows ["a,b"] 3, r.length = 3) ∧
    (∀ r ∈ [[Value.str "a", Value.str "b", Value.num .nan]], r.length = 3) := by
  refine ⟨claim_C4.1 ["a"] 3, ?_, ?_, ?_, claim_C4.2.2.2.2.2.2.1 ["a,b"] 3,
    claim_C4.2.2.2.2.2.2.2.1 3 ["a,b"] _ (by decide)⟩
  · have h := claim_C4.2.1 ["a"] 3 (by decide)
    simpa using h
  · have h := claim_C4.2.2.1 ["a", "b", "c", "d"] 3 (by decide)
    simpa using h
  · rw [claim_C4.2.2.2.1 ["a,b", "", "c"] 3]
    decide

/-- C6.  For every Budget file the parsed grid is the accumulation over all
materialized 3-field rows, and each cell equals the sum of the coerced
winter (resp. summer) values of the rows whose trimmed category label maps
through the fixed lookup table to that cell's canonical key (the keys named
in English by the spec are the parser's internal keys `Movilizacion`,
`Costos Directos`, `Costos Indirectos/Generales`, `Utilidades`); rows with
unrecognized labels contribute to no cell and cause no error.  Two rows
labelled `CostosDirectos` with winter values 100 and 50 sum to 150 in the
direct-costs winter cell. -/
theorem claim_C6 :
    (∀ content i names, find_header_row content ecoHeader 50 = some (i, names) →
      parse_eco_visma content = some (ecoAccum
        ((materializeEcoRows (content.drop (i + 1)) names.length).map ecoCleanRow))) ∧
    (∀ (rows : List (String × PyFloat × PyFloat)) (key : String),
      (ecoAccum rows).inv key =
        (rows.filterMap (fun r => if category_mapping_to_internal_key r.1 = some key
          then some r.2.1 else none)).foldl PyFloat.add (.finite 0) ∧
      (ecoAccum rows).ver key =
        (rows.filterMap (fun r => if category_mapping_to_internal_key r.1 = some key
          then some r.2.2 else none)).foldl PyFloat.add (.finite 0)) ∧
    (parse_eco_visma ["Categoria,Invierno,Verano", "CostosDirectos,100,30",
      "CostosDirectos,50,20"]).map (fun g => g.invDir) = some (.finite (mkRat 150 1)) ∧
    mkRat 150 1 = (150 : ℚ) := by
  refine ⟨parse_eco_eq_accum, ?_, by decide, by rw [Rat.mkRat_eq_div]; norm_num⟩
  intro rows key
  constructor
  · rw [ecoAccum]
    have h := ecoAccum_go_inv key rows zeroEco
    rwa [zeroEco_inv] at h
  · rw [ecoAccum]
    have h := ecoAccum_go_ver key rows zeroEco
    rwa [zeroEco_ver] at h

/-- C6 witness: the accumulation equation applied to the claim's concrete
budget file and the sum characterization at its rows. -/
theorem claim_C6_witness :
    parse_eco_visma ["Categoria,Invierno,Verano", "CostosDirectos,100,30",
      "CostosDirectos,50,20"] = some (ecoAccum
        ((materializeEcoRows ["CostosDirectos,100,30", "CostosDirectos,50,20"] 3).map
          ecoCleanRow)) ∧
    (ecoAccum [("CostosDirectos", PyFloat.finite (mkRat 100 1), PyFloat.finite (mkRat 30 1)),
       ("CostosDirectos", PyFloat.finite (mkRat 50 1), PyFloat.finite (mkRat 20 1))]).inv
      "Costos Directos" =
      ([PyFloat.finite (mkRat 100 1), PyFloat.finite (mkRat 50 1)]).foldl PyFloat.add
        (.finite 0) := by
  constructor
  · exact claim_C6.1 _ 0 ecoHeader (by decide)
  · have h := (claim_C6.2.1
      [("CostosDirectos", PyFloat.finite (mkRat 100 1), PyFloat.finite (mkRat 30 1)),
       ("CostosDirectos", PyFloat.finite (mkRat 50 1), PyFloat.finite (mkRat 20 1))]
      "Costos Directos").1
    rw [h]
    decide

theorem DF.mapRowAt_length (cs : List String) (c : String) (f : Value → Value) :
    ∀ r : List Value, (DF.mapRowAt cs c f r).length = r.length := by
  intro r
  induction cs generalizing r with
  | nil => cases r <;> rfl
  | cons c0 cs ih =>
    cases r with
    | nil => rfl
    | cons v vs => simp [DF.mapRowAt, ih]

theorem foldl_mapRowAt_length (L : List String) (cols : List String) (f : Value → Value)
    (r : List Value) :
    (L.foldl (fun r2 c => DF.mapRowAt cols c f r2) r).length = r.length := by
  induction L generalizing r with
  | nil => rfl
  | cons x xs ih => rw [List.foldl_cons, ih, DF.mapRowAt_length]

theorem DF.getCell_append (cols : List String) (r : List Value) (c2 c : String) (v : Value)
    (hr : r.length = cols.length) :
    DF.getCell (cols ++ [c2]) (r ++ [v]) c =
      if cols.contains c then DF.getCell cols r c else if c2 = c then v else .str "" := by
  induction cols generalizing r with
  | nil =>
    rw [List.length_nil, List.length_eq_zero] at hr
    subst hr
    simp only [List.nil_append, List.contains_nil, Bool.false_eq_true, if_false]
    rfl
  | cons c0 cs ih =>
    obtain ⟨w, ws, rfl, hws⟩ := cons_of_length_succ r cs.length (by simpa using hr)
    simp only [List.cons_append, DF.getCell, List.contains_cons]
    by_cases h0 : c0 = c
    · subst h0
      simp
    · have hb : (c == c0) = false := by simp [Ne.symm h0]
      simp only [if_neg h0, hb, Bool.false_or]
      exact ih ws hws

theorem DF.cols_selectCols (df : DF) (sel : List String) :
    (df.selectCols sel).cols = sel.filter (fun c => df.cols.contains c) := rfl

theorem stockFilter_hasCol (df : DF) (c : String) :
    (stockFilter df).hasCol c = df.hasCol c := by
  rw [stockFilter]
  split
  · rfl
  · rfl

/-- Every record of the final stock selection carries exactly the canonical
stock columns, whatever the detected header. -/
theorem stock_select_records (names : List String) (rows : List (List Value)) :
    ((stockFilter (stockNormalize names rows)).selectCols stockFinalCols).cols =
        stockFinalCols ∧
      ∀ rec ∈ ((stockFilter (stockNormalize names rows)).selectCols stockFinalCols).records,
        rec.map Prod.fst = stockFinalCols := by
  have hall : (stockFinalCols.filter
      (fun c => (stockFilter (stockNormalize names rows)).cols.contains c)) = stockFinalCols := by
    apply List.filter_eq_self.mpr
    intro c hc
    have h1 : (stockNormalize names rows).hasCol c := by
      rw [stockNormalize, stockEnsureFinal]
      exact ensure_foldl_hasCol _ _ _ _ hc
    have h2 := stockFilter_hasCol (stockNormalize names rows) c
    rw [DF.hasCol] at h1 h2
    rw [h2]
    exact h1
  constructor
  · rw [DF.cols_selectCols]
    exact hall
  · intro rec hrec
    rw [records_selectCols, List.mem_map] at hrec
    obtain ⟨r, hr, rfl⟩ := hrec
    rw [hall, map_fst_graph]

/-- Every record of the finalized fuel frame carries exactly the canonical
internal fuel columns, whatever the incoming frame. -/
theorem fuel_finalize_records (df2 : DF) :
    (fuelFinalize df2).cols = fuelInternalCols ∧
      ∀ rec ∈ (fuelFinalize df2).records, rec.map Prod.fst = fuelInternalCols := by
  have hall : (fuelInternalCols.filter
      (fun c => (fuelEnsureInternal (df2.renameCols fuelRenameMap)).cols.contains c)) =
      fuelInternalCols := by
    apply List.filter_eq_self.mpr
    intro c hc
    have h1 : (fuelEnsureInternal (df2.renameCols fuelRenameMap)).hasCol c := by
      rw [fuelEnsureInternal]
      exact ensure_foldl_hasCol _ _ _ _ hc
    rw [DF.hasCol] at h1
    exact h1
  constructor
  · rw [fuelFinalize, DF.cols_selectCols]
    exact hall
  · intro rec hrec
    rw [fuelFinalize] at hrec
    rw [records_selectCols, List.mem_map] at hrec
    obtain ⟨r, hr, rfl⟩ := hrec
    rw [hall, map_fst_graph]

theorem stock_keep_eq (names : List String) (rows : List (List Value)) :
    stockFinalCols.filter
      (fun c => (stockFilter (stockNormalize names rows)).cols.contains c) = stockFinalCols := by
  apply List.filter_eq_self.mpr
  intro c hc
  have h1 : (stockNormalize names rows).hasCol c := by
    rw [stockNormalize, stockEnsureFinal]
    exact ensure_foldl_hasCol _ _ _ _ hc
  have h2 := stockFilter_hasCol (stockNormalize names rows) c
  rw [DF.hasCol] at h1 h2
  rw [h2]
  exact h1

theorem stockDetect_names (content : List String) (i : Nat) (names : List String) (b : Bool)
    (h : stockDetect content = some (i, names, b)) :
    (names = stockFullHeader ∧ b = true) ∨ (names = stockNoMinHeader ∧ b = false) := by
  rw [stockDetect] at h
  rcases h1 : find_header_row content stockFullHeader 50 with _ | ⟨j, f⟩
  · rw [h1] at h
    rcases h2 : find_header_row content stockNoMinHeader 50 with _ | ⟨j2, f2⟩
    · rw [h2] at h
      cases h
    · rw [h2] at h
      simp only [Option.some.injEq, Prod.mk.injEq] at h
      obtain ⟨-, hn, hb⟩ := h
      right
      refine ⟨?_, hb.symm⟩
      rw [← hn]
      exact ((find_header_row_some_iff _ _ _ _ _).mp h2).1
  · rw [h1] at h
    simp only [Option.some.injEq, Prod.mk.injEq] at h
    obtain ⟨-, hn, hb⟩ := h
    left
    refine ⟨?_, hb.symm⟩
    rw [← hn]
    exact ((find_header_row_some_iff _ _ _ _ _).mp h1).1

theorem stockFilter_eq_gen (cols : List String) (rs : List (List Value))
    (h1 : cols.contains "Codigo" = true) (h2 : cols.contains "Categoria" = true) :
    stockFilter (DF.mk cols rs) =
      DF.mk cols (rs.filter (fun r =>
        DF.getCell cols r "Codigo" ≠ .str "" ∧ DF.getCell cols r "Categoria" ≠ .str "")) := by
  rw [stockFilter, if_pos ⟨by rw [DF.hasCol_mk]; exact h1, by rw [DF.hasCol_mk]; exact h2⟩,
    DF.filterRows_mk]

/-- C5.  Every record of a successfully parsed file carries exactly the file
kind's full canonical column set, independent of which candidate header
matched; for a stock file whose header omits `STOCK_MINIMO`, every record
still has `STOCK_MINIMO` present and equal to `0.0`; the fuel template and
internal column lists are permutations of each other.  (Neither stock candidate omits a
string column, so the empty-string default for absent string columns is
never exercised.) -/
theorem claim_C5 :
    (∀ content df, parse_stock_visma content = some df →
      df.cols = stockFinalCols ∧ ∀ rec ∈ df.records, rec.map Prod.fst = stockFinalCols) ∧
    (∀ content df, find_header_row content stockFullHeader 50 = none →
      parse_stock_visma content = some df →
      ∀ rec ∈ df.records, recLook rec "STOCK_MINIMO" = .num (.finite 0)) ∧
    (∀ content df bal, parse_fuel_log content = some (df, bal) →
      ∀ rec ∈ df.records, rec.map Prod.fst = fuelInternalCols) ∧
    fuelTemplateCols.Perm fuelInternalCols := by
  refine ⟨?_, ?_, ?_, by decide⟩
  · intro content df h
    rw [parse_stock_visma] at h
    rcases hd : stockDetect content with _ | ⟨i, names, b⟩
    · rw [hd] at h
      cases h
    · rw [hd] at h
      dsimp only at h
      by_cases he : (materializeRows (content.drop (i + 1)) names.length).isEmpty
      · rw [if_pos he] at h
        injection h with h2
        subst h2
        refine ⟨rfl, ?_⟩
        intro rec hrec
        rw [DF.records_mk] at hrec
        simp at hrec
      · rw [if_neg he] at h
        injection h with h2
        subst h2
        exact ⟨(stock_select_records names _).1, (stock_select_records names _).2⟩
  · intro content df hfull h
    rw [parse_stock_visma] at h
    rcases hd : stockDetect content with _ | ⟨i, names, b⟩
    · rw [hd] at h
      cases h
    · have hnames : names = stockNoMinHeader := by
        rw [stockDetect_fallback content hfull] at hd
        rcases h2 : find_header_row content stockNoMinHeader 50 with _ | ⟨j, f⟩
        · rw [h2] at hd
          cases hd
        · rw [h2] at hd
          simp only [Option.map_some', Option.some.injEq, Prod.mk.injEq] at hd
          obtain ⟨-, hn, -⟩ := hd
          rw [← hn]
          exact ((find_header_row_some_iff _ _ _ _ _).mp h2).1
      subst hnames
      rw [hd] at h
      dsimp only at h
      by_cases he : (materializeRows (content.drop (i + 1)) stockNoMinHeader.length).isEmpty
      · rw [if_pos he] at h
        injection h with h2
        subst h2
        intro rec hrec
        rw [DF.records_mk] at hrec
        simp at hrec
      · rw [if_neg he] at h
        injection h with h2
        subst h2
        intro rec hrec
        rw [records_selectCols, List.mem_map] at hrec
        obtain ⟨r, hr, rfl⟩ := hrec
        rw [recLook_graph, stock_keep_eq, if_pos (by decide : stockFinalCols.contains "STOCK_MINIMO" = true)]
        rw [stockNormalize_nomin_eq] at hr
        rw [stockFilter_eq_gen _ _ (by decide) (by decide)] at hr
        simp only [DF.mk.injEq] at hr
        have hr2 := List.mem_of_mem_filter hr
        rw [List.mem_map] at hr2
        obtain ⟨r0, hr0, rfl⟩ := hr2
        have hlen0 : r0.length = 6 := by
          have := materializeRows_length (content.drop (i + 1)) stockNoMinHeader.length r0 hr0
          simpa using this
        have hcols : (stockFilter (stockNormalize stockNoMinHeader
            (materializeRows (content.drop (i + 1)) stockNoMinHeader.length))).cols =
            stockNoMinHeader ++ ["STOCK_MINIMO"] ++ ["Valor Total Item"] := by
          rw [stockNormalize_nomin_eq, stockFilter_eq_gen _ _ (by decide) (by decide)]
        rw [hcols]
        rw [DF.getCell_append (stockNoMinHeader ++ ["STOCK_MINIMO"]) _ "Valor Total Item"
          "STOCK_MINIMO" _ (by
          simp only [List.length_append, foldl_mapRowAt_length, hlen0]
          decide)]
        rw [if_pos (by decide : (stockNoMinHeader ++ ["STOCK_MINIMO"]).contains "STOCK_MINIMO" = true)]
        rw [DF.getCell_append stockNoMinHeader _ "STOCK_MINIMO" "STOCK_MINIMO" _ (by
          simp only [foldl_mapRowAt_length, hlen0]
          decide)]
        rw [if_neg (by decide), if_pos rfl]
  · intro content df bal h
    rw [parse_fuel_log] at h
    try dsimp only at h
    rcases hidx : (fuelScan content).headerIdx with _ | i
    · rw [hidx] at h
      try dsimp only at h
      injection h with h2
      injection h2 with h3 h4
      subst h3
      intro rec hrec
      rw [DF.records_mk] at hrec
      simp at hrec
    · rw [hidx] at h
      try dsimp only at h
      rcases hread : readCsvBlock (content.drop i) with _ | dfRaw
      · rw [hread] at h
        try dsimp only at h
        injection h with h2
        injection h2 with h3 h4
        subst h3
        intro rec hrec
        rw [DF.records_mk] at hrec
        simp at hrec
      · rw [hread] at h
        try dsimp only at h
        split at h
        · injection h with h2
          injection h2 with h3 h4
          subst h3
          intro rec hrec
          rw [DF.records_mk] at hrec
          simp at hrec
        · injection h with h2
          injection h2 with h3 h4
          subst h3
          exact (fuel_finalize_records _).2

/-- Witness for C5: a stock file whose header omits `STOCK_MINIMO` yields the
full canonical column set with `STOCK_MINIMO = 0.0` in its record, and a
concrete fuel-log file yields records over the internal fuel columns. -/
theorem claim_C5_witness :
    ((parse_stock_visma
        ["Codigo,Producto,Categoria,CantidadActual,CostoUnitario,Ubicacion",
         "A1,Prod,Cat,5,1250.50,Dep"]).getD (DF.mk [] [])).cols = stockFinalCols ∧
    recLook
      ((((parse_stock_visma
        ["Codigo,Producto,Categoria,CantidadActual,CostoUnitario,Ubicacion",
         "A1,Prod,Cat,5,1250.50,Dep"]).getD (DF.mk [] [])).records).getD 0 [])
      "STOCK_MINIMO" = Value.num (PyFloat.finite 0) ∧
    ((((parse_fuel_log
        ["SETUP,MAPEO CODIGO,001,GASOIL",
         "SETUP,Saldo Inicial GASOIL,500.00",
         "Fecha,Equipo,CodigoCombustible,LtsIngreso,LtsEgreso,HsKm,Comentarios,CostoUnitarioLt",
         "01-03-2025,MO-13-V,001,0.0,98.0,1778.0,Consumo normal,1200.50"]).getD
        (DF.mk [] [], (.finite 0, .finite 0))).1.records).getD 0 []).map Prod.fst =
      fuelInternalCols :=
  ⟨(claim_C5.1
      ["Codigo,Producto,Categoria,CantidadActual,CostoUnitario,Ubicacion",
       "A1,Prod,Cat,5,1250.50,Dep"]
      ((parse_stock_visma
        ["Codigo,Producto,Categoria,CantidadActual,CostoUnitario,Ubicacion",
         "A1,Prod,Cat,5,1250.50,Dep"]).getD (DF.mk [] [])) (by decide)).1,
   claim_C5.2.1
      ["Codigo,Producto,Categoria,CantidadActual,CostoUnitario,Ubicacion",
       "A1,Prod,Cat,5,1250.50,Dep"]
      ((parse_stock_visma
        ["Codigo,Producto,Categoria,CantidadActual,CostoUnitario,Ubicacion",
         "A1,Prod,Cat,5,1250.50,Dep"]).getD (DF.mk [] []))
      (by decide) (by decide) _ (by decide),
   claim_C5.2.2.1
      ["SETUP,MAPEO CODIGO,001,GASOIL",
       "SETUP,Saldo Inicial GASOIL,500.00",
       "Fecha,Equipo,CodigoCombustible,LtsIngreso,LtsEgreso,HsKm,Comentarios,CostoUnitarioLt",
       "01-03-2025,MO-13-V,001,0.0,98.0,1778.0,Consumo normal,1200.50"]
      ((parse_fuel_log
        ["SETUP,MAPEO CODIGO,001,GASOIL",
         "SETUP,Saldo Inicial GASOIL,500.00",
         "Fecha,Equipo,CodigoCombustible,LtsIngreso,LtsEgreso,HsKm,Comentarios,CostoUnitarioLt",
         "01-03-2025,MO-13-V,001,0.0,98.0,1778.0,Consumo normal,1200.50"]).getD
        (DF.mk [] [], (.finite 0, .finite 0))).1
      ((parse_fuel_log
        ["SETUP,MAPEO CODIGO,001,GASOIL",
         "SETUP,Saldo Inicial GASOIL,500.00",
         "Fecha,Equipo,CodigoCombustible,LtsIngreso,LtsEgreso,HsKm,Comentarios,CostoUnitarioLt",
         "01-03-2025,MO-13-V,001,0.0,98.0,1778.0,Consumo normal,1200.50"]).getD
        (DF.mk [] [], (.finite 0, .finite 0))).2
      (by decide) _ (by decide)⟩

theorem records_selectCols_mk (colsX : List String) (rs : List (List Value)) (sel : List String) :
    ((DF.mk colsX rs).selectCols sel).records =
      rs.map (fun r => (sel.filter (fun c => colsX.contains c)).map
        (fun c => (c, DF.getCell colsX r c))) :=
  records_selectCols (DF.mk colsX rs) sel

theorem fuelNormalize_eq2 (mapping : List (String × String)) (dfRaw : DF)
    (h8 : dfRaw.cols.length = 8) :
    fuelNormalize mapping dfRaw =
      DF.mk (((fuelDataHeader ++ ["Hs/Km_Numeric"]) ++ ["Costo Total Egreso"]) ++
          ["Tipo de Comb."])
        (dfRaw.rows.map (fuelRowFun mapping)) :=
  fuelNormalize_eq mapping dfRaw h8

theorem fuelRowFun_length (mapping : List (String × String)) (r : List Value)
    (h : r.length = 8) : (fuelRowFun mapping r).length = 11 := by
  dsimp only [fuelRowFun]
  simp only [List.length_append, DF.mapRowAt_length, foldl_mapRowAt_length, h,
    List.length_singleton]

theorem eq_of_length_eleven (l : List Value) (h : l.length = 11) :
    ∃ a b c d e f g i j k m, l = [a, b, c, d, e, f, g, i, j, k, m] := by
  obtain ⟨a, l1, rfl, h1⟩ := cons_of_length_succ l 10 h
  obtain ⟨b, l2, rfl, h2⟩ := cons_of_length_succ l1 9 h1
  obtain ⟨c, l3, rfl, h3⟩ := cons_of_length_succ l2 8 h2
  obtain ⟨d, e, f, g, i, j, k, m, hl⟩ := eq_of_length_eight l3 h3
  exact ⟨a, b, c, d, e, f, g, i, j, k, m, by rw [hl]⟩

theorem fuel_cells_renamed (r : List Value) (h : r.length = 11) :
    DF.getCell (((fuelDataHeader ++ ["Hs/Km_Numeric"]) ++ ["Costo Total Egreso"]) ++
        ["Tipo de Comb."]) r "Fecha" =
      DF.getCell ["Fecha", "Equipo/Int.", "Codigo", "Lts Ingreso", "Lts Egreso", "HsKm",
        "Comentarios", "Costo Unitario Lt", "Hs/Km_Numeric", "Costo Total Egreso",
        "Tipo de Comb."] r "Fecha" ∧
    DF.getCell (((fuelDataHeader ++ ["Hs/Km_Numeric"]) ++ ["Costo Total Egreso"]) ++
        ["Tipo de Comb."]) r "Equipo" =
      DF.getCell ["Fecha", "Equipo/Int.", "Codigo", "Lts Ingreso", "Lts Egreso", "HsKm",
        "Comentarios", "Costo Unitario Lt", "Hs/Km_Numeric", "Costo Total Egreso",
        "Tipo de Comb."] r "Equipo/Int." ∧
    DF.getCell (((fuelDataHeader ++ ["Hs/Km_Numeric"]) ++ ["Costo Total Egreso"]) ++
        ["Tipo de Comb."]) r "CodigoCombustible" =
      DF.getCell ["Fecha", "Equipo/Int.", "Codigo", "Lts Ingreso", "Lts Egreso", "HsKm",
        "Comentarios", "Costo Unitario Lt", "Hs/Km_Numeric", "Costo Total Egreso",
        "Tipo de Comb."] r "Codigo" := by
  obtain ⟨a, b, c, d, e, f, g, i, j, k, m, rfl⟩ := eq_of_length_eleven r h
  exact ⟨rfl, rfl, rfl⟩

theorem fuelFinalize_records_eq (rs : List (List Value)) :
    (fuelFinalize (DF.mk (((fuelDataHeader ++ ["Hs/Km_Numeric"]) ++ ["Costo Total Egreso"]) ++
        ["Tipo de Comb."]) rs)).records =
      rs.map (fun r => fuelInternalCols.map (fun c =>
        (c, DF.getCell ["Fecha", "Equipo/Int.", "Codigo", "Lts Ingreso", "Lts Egreso", "HsKm",
          "Comentarios", "Costo Unitario Lt", "Hs/Km_Numeric", "Costo Total Egreso",
          "Tipo de Comb."] r c))) := by
  rw [fuelFinalize_eq, DF.records_mk, List.map_map]
  apply List.map_congr_left
  intro r _
  simp only [Function.comp_apply]
  exact zip_map_graph _ _

theorem stock_mem_filter_iff (colsX : List String) (rowsX : List (List Value))
    (hkeep : stockFinalCols.filter (fun c => colsX.contains c) = stockFinalCols)
    (h1 : colsX.contains "Codigo" = true) (h2 : colsX.contains "Categoria" = true)
    (rec : List (String × Value)) :
    rec ∈ ((stockFilter (DF.mk colsX rowsX)).selectCols stockFinalCols).records ↔
      (rec ∈ ((DF.mk colsX rowsX).selectCols stockFinalCols).records ∧
       recLook rec "Codigo" ≠ Value.str "" ∧ recLook rec "Categoria" ≠ Value.str "") := by
  rw [stockFilter_eq_gen colsX rowsX h1 h2, records_selectCols_mk, records_selectCols_mk, hkeep]
  set g : List Value → List (String × Value) :=
    fun r => stockFinalCols.map (fun c => (c, DF.getCell colsX r c)) with hg
  have hpt : ∀ r ∈ rowsX,
      (fun r => decide (DF.getCell colsX r "Codigo" ≠ Value.str "" ∧
        DF.getCell colsX r "Categoria" ≠ Value.str "")) r =
      ((fun rx => decide (recLook rx "Codigo" ≠ Value.str "" ∧
        recLook rx "Categoria" ≠ Value.str "")) ∘ g) r := by
    intro r _
    simp only [Function.comp_apply, hg]
    rw [recLook_graph, recLook_graph,
      if_pos (by decide : stockFinalCols.contains "Codigo" = true),
      if_pos (by decide : stockFinalCols.contains "Categoria" = true)]
  rw [List.filter_congr hpt, ← List.filter_map, List.mem_filter]
  simp only [decide_eq_true_eq]

theorem fuel_mem_filter_iff (mapping : List (String × String)) (dfRaw : DF)
    (h8 : dfRaw.cols.length = 8) (hlen : ∀ r ∈ dfRaw.rows, r.length = 8)
    (rec : List (String × Value)) :
    rec ∈ (fuelFinalize (fuelFilter (fuelNormalize mapping dfRaw))).records ↔
      (rec ∈ (fuelFinalize (fuelNormalize mapping dfRaw)).records ∧
       notnaCell (recLook rec "Fecha") = true ∧
       nonEmptyStrCell (recLook rec "Equipo/Int.") = true ∧
       nonEmptyStrCell (recLook rec "Codigo") = true) := by
  rw [fuelNormalize_eq2 mapping dfRaw h8, fuelFilter_eq, fuelFinalize_records_eq,
    fuelFinalize_records_eq]
  set g : List Value → List (String × Value) :=
    fun r => fuelInternalCols.map (fun c =>
      (c, DF.getCell ["Fecha", "Equipo/Int.", "Codigo", "Lts Ingreso", "Lts Egreso", "HsKm",
        "Comentarios", "Costo Unitario Lt", "Hs/Km_Numeric", "Costo Total Egreso",
        "Tipo de Comb."] r c)) with hg
  have hlen11 : ∀ r ∈ dfRaw.rows.map (fuelRowFun mapping), r.length = 11 := by
    intro r hr
    rw [List.mem_map] at hr
    obtain ⟨r0, hr0, rfl⟩ := hr
    exact fuelRowFun_length mapping r0 (hlen r0 hr0)
  have hq1 : ∀ r ∈ dfRaw.rows.map (fuelRowFun mapping),
      (fun r => notnaCell (DF.getCell (((fuelDataHeader ++ ["Hs/Km_Numeric"]) ++
        ["Costo Total Egreso"]) ++ ["Tipo de Comb."]) r "Fecha")) r =
      ((fun rx => notnaCell (recLook rx "Fecha")) ∘ g) r := by
    intro r hr
    have hc := (fuel_cells_renamed r (hlen11 r hr)).1
    simp only [Function.comp_apply, hg]
    rw [recLook_graph, if_pos (by decide : fuelInternalCols.contains "Fecha" = true), hc]
  rw [List.filter_congr hq1]
  have hq2 : ∀ r ∈ List.filter ((fun rx => notnaCell (recLook rx "Fecha")) ∘ g)
      (dfRaw.rows.map (fuelRowFun mapping)),
      (fun r => nonEmptyStrCell (DF.getCell (((fuelDataHeader ++ ["Hs/Km_Numeric"]) ++
        ["Costo Total Egreso"]) ++ ["Tipo de Comb."]) r "Equipo")) r =
      ((fun rx => nonEmptyStrCell (recLook rx "Equipo/Int.")) ∘ g) r := by
    intro r hr
    have hc := (fuel_cells_renamed r (hlen11 r (List.mem_of_mem_filter hr))).2.1
    simp only [Function.comp_apply, hg]
    rw [recLook_graph, if_pos (by decide : fuelInternalCols.contains "Equipo/Int." = true), hc]
  rw [List.filter_congr hq2]
  have hq3 : ∀ r ∈ List.filter ((fun rx => nonEmptyStrCell (recLook rx "Equipo/Int.")) ∘ g)
      (List.filter ((fun rx => notnaCell (recLook rx "Fecha")) ∘ g)
        (dfRaw.rows.map (fuelRowFun mapping))),
      (fun r => nonEmptyStrCell (DF.getCell (((fuelDataHeader ++ ["Hs/Km_Numeric"]) ++
        ["Costo Total Egreso"]) ++ ["Tipo de Comb."]) r "CodigoCombustible")) r =
      ((fun rx => nonEmptyStrCell (recLook rx "Codigo")) ∘ g) r := by
    intro r hr
    have hc := (fuel_cells_renamed r (hlen11 r
      (List.mem_of_mem_filter (List.mem_of_mem_filter hr)))).2.2
    simp only [Function.comp_apply, hg]
    rw [recLook_graph, if_pos (by decide : fuelInternalCols.contains "Codigo" = true), hc]
  rw [List.filter_congr hq3, ← List.filter_map, ← List.filter_map, ← List.filter_map,
    List.mem_filter, List.mem_filter, List.mem_filter]
  tauto

/-- C7.  Row-level validity filtering: a stock record appears in the output
iff it appears among the (normalized, unfiltered) materialized records with
both `Codigo` and `Categoria` non-empty after trimming; the budget parser
applies no row-level filter (its result folds over *all* cleaned
materialized rows); a fuel-log record appears iff it appears among the
normalized records with a successfully parsed date, a non-empty equipment
identifier and a non-empty fuel code (the fuel part is stated for a data
block whose header row carries the 8 expected fields); concretely, a stock
row with empty `Codigo` and fuel rows with an empty `Equipo` or an
unparseable `Fecha` are absent from the respective outputs. -/
theorem claim_C7 :
    (∀ content df, parse_stock_visma content = some df →
      ∃ dfu, stockUnfiltered content = some dfu ∧
        ∀ rec, rec ∈ df.records ↔
          (rec ∈ dfu.records ∧
           recLook rec "Codigo" ≠ Value.str "" ∧ recLook rec "Categoria" ≠ Value.str "")) ∧
    (∀ content i names, find_header_row content ecoHeader 50 = some (i, names) →
      parse_eco_visma content = some (ecoAccum
        ((materializeEcoRows (content.drop (i + 1)) names.length).map ecoCleanRow))) ∧
    (∀ content df bal i dfRaw, parse_fuel_log content = some (df, bal) →
      (fuelScan content).headerIdx = some i →
      readCsvBlock (content.drop i) = some dfRaw →
      dfRaw.cols.length = 8 →
      ∀ rec, rec ∈ df.records ↔
        (rec ∈ (fuelFinalize (fuelNormalize (fuelScan content).mapping dfRaw)).records ∧
         notnaCell (recLook rec "Fecha") = true ∧
         nonEmptyStrCell (recLook rec "Equipo/Int.") = true ∧
         nonEmptyStrCell (recLook rec "Codigo") = true)) ∧
    ((parse_stock_visma
      ["Codigo,Producto,Categoria,CantidadActual,CostoUnitario,Ubicacion,STOCK_MINIMO",
       "A1,P,C,1,2,L,0", ",P2,C2,1,2,L,0"]).getD (DF.mk [] [])).records.map
      (fun rec => recLook rec "Codigo") = [Value.str "A1"] ∧
    ((parse_fuel_log
      ["Fecha,Equipo,CodigoCombustible,LtsIngreso,LtsEgreso,HsKm,Comentarios,CostoUnitarioLt",
       "01-03-2025,MO-13-V,001,0.0,98.0,1778.0,ok,1200.50",
       "02-03-2025,,001,0.0,10.0,1.0,x,1.0",
       "badly,EQ,001,0.0,10.0,1.0,x,1.0"]).getD
      (DF.mk [] [], (.finite 0, .finite 0))).1.records.map
      (fun rec => recLook rec "Equipo/Int.") = [Value.str "MO-13-V"] := by
  refine ⟨?_, ?_, ?_, by decide, by decide⟩
  · intro content df h
    rw [parse_stock_visma] at h
    rcases hd : stockDetect content with _ | ⟨i, names, b⟩
    · rw [hd] at h
      cases h
    · rw [hd] at h
      dsimp only at h
      rw [stockUnfiltered, hd]
      dsimp only
      by_cases he : (materializeRows (content.drop (i + 1)) names.length).isEmpty
      · rw [if_pos he] at h ⊢
        injection h with h2
        subst h2
        refine ⟨⟨stockFinalCols, []⟩, rfl, ?_⟩
        intro rec
        simp [DF.records_mk]
      · rw [if_neg he] at h ⊢
        injection h with h2
        subst h2
        refine ⟨_, rfl, ?_⟩
        intro rec
        rcases stockDetect_names content i names b hd with ⟨rfl, -⟩ | ⟨rfl, -⟩
        · rw [stockNormalize_full_eq]
          exact stock_mem_filter_iff _ _ (by decide) (by decide) (by decide) rec
        · rw [stockNormalize_nomin_eq]
          exact stock_mem_filter_iff _ _ (by decide) (by decide) (by decide) rec
  · intro content i names h
    exact parse_eco_eq_accum content i names h
  · intro content df bal i dfRaw h hidx hread h8
    rcases hdrop : content.drop i with _ | ⟨hdr, rest⟩
    · rw [hdrop] at hread
      cases hread
    rw [hdrop, readCsvBlock] at hread
    try dsimp only at hread
    rcases hrows : readCsvRows (csvSplit hdr).length rest with _ | rows
    · rw [hrows] at hread
      cases hread
    rw [hrows] at hread
    injection hread with h5
    subst h5
    have hlen : ∀ r ∈ (DF.mk (csvSplit hdr) rows).rows, r.length = 8 := by
      intro r hr
      have := readCsvRows_length (csvSplit hdr).length rest rows hrows r hr
      rw [this]
      exact h8
    rw [parse_fuel_log] at h
    try dsimp only at h
    rw [hidx] at h
    try dsimp only at h
    rw [hdrop, readCsvBlock] at h
    try dsimp only at h
    rw [hrows] at h
    try dsimp only at h
    by_cases hemp : ((DF.mk (csvSplit hdr) rows).rows.isEmpty ∨
        (DF.mk (csvSplit hdr) rows).cols.isEmpty)
    · rw [if_pos hemp] at h
      injection h with h2
      injection h2 with h3 h4
      subst h3
      have hrnil : rows = [] := by
        rcases hemp with hr | hc
        · exact List.isEmpty_iff.mp hr
        · exfalso
          rw [List.isEmpty_iff] at hc
          rw [show (DF.mk (csvSplit hdr) rows).cols = csvSplit hdr from rfl] at hc
          rw [hc] at h8
          simp at h8
      intro rec
      constructor
      · intro hrec
        rw [DF.records_mk] at hrec
        simp at hrec
      · rintro ⟨hrec, -⟩
        exfalso
        rw [fuelNormalize_eq2 _ _ h8] at hrec
        rw [show (DF.mk (csvSplit hdr) rows).rows = rows from rfl, hrnil] at hrec
        rw [fuelFinalize_records_eq] at hrec
        simp at hrec
    · rw [if_neg hemp] at h
      injection h with h2
      injection h2 with h3 h4
      subst h3
      intro rec
      exact fuel_mem_filter_iff _ _ h8 hlen rec

/-- Witness for C7: the surviving record of the concrete stock file has a
non-empty `Codigo`, obtained through the filter characterization. -/
theorem claim_C7_witness :
    recLook ((((parse_stock_visma
      ["Codigo,Producto,Categoria,CantidadActual,CostoUnitario,Ubicacion,STOCK_MINIMO",
       "A1,P,C,1,2,L,0", ",P2,C2,1,2,L,0"]).getD (DF.mk [] [])).records).getD 0 [])
      "Codigo" ≠ Value.str "" := by
  obtain ⟨dfu, hdfu, hiff⟩ := claim_C7.1
    ["Codigo,Producto,Categoria,CantidadActual,CostoUnitario,Ubicacion,STOCK_MINIMO",
     "A1,P,C,1,2,L,0", ",P2,C2,1,2,L,0"]
    ((parse_stock_visma
      ["Codigo,Producto,Categoria,CantidadActual,CostoUnitario,Ubicacion,STOCK_MINIMO",
       "A1,P,C,1,2,L,0", ",P2,C2,1,2,L,0"]).getD (DF.mk [] [])) (by decide)
  exact ((hiff _).mp (by decide)).2.1

/-- C8 counterexample.  The claim reads the derived totals as the product of
the coerced inputs of the same record; but the code zeroes missing operands
first (`.fillna(0.0)`, source lines 226 and 567): on a stock row whose
quantity cell coerces to NaN (`"NaN"` is not in the case-sensitive sentinel
list, so `float` parses it), the stored total is `0.0` while the product of
the record's own coerced inputs is NaN. -/
theorem claim_C8_counterexample :
    recLook ((((parse_stock_visma
      ["Codigo,Producto,Categoria,CantidadActual,CostoUnitario,Ubicacion,STOCK_MINIMO",
       "A1,P,C,NaN,2,L,0"]).getD (DF.mk [] [])).records).getD 0 [])
      "CantidadActual" = Value.num PyFloat.nan ∧
    recLook ((((parse_stock_visma
      ["Codigo,Producto,Categoria,CantidadActual,CostoUnitario,Ubicacion,STOCK_MINIMO",
       "A1,P,C,NaN,2,L,0"]).getD (DF.mk [] [])).records).getD 0 [])
      "CostoUnitario" = Value.num (PyFloat.finite 2) ∧
    recLook ((((parse_stock_visma
      ["Codigo,Producto,Categoria,CantidadActual,CostoUnitario,Ubicacion,STOCK_MINIMO",
       "A1,P,C,NaN,2,L,0"]).getD (DF.mk [] [])).records).getD 0 [])
      "Valor Total Item" = Value.num (PyFloat.finite 0) ∧
    mulCell (Value.num PyFloat.nan) (Value.num (PyFloat.finite 2)) ≠
      Value.num (PyFloat.finite 0) := by
  refine ⟨by decide, by decide, by decide, by decide⟩

/-- C8 (amended).  For every output record the derived total equals the
product of the record's coerced inputs *with missing operands zeroed first*
(`.fillna(0.0)`): stock `Valor Total Item` is the product of the zeroed
`CantidadActual` and `CostoUnitario`, and fuel `Costo Total Egreso` is the
product of the zeroed `Lts Egreso` and `Costo Unitario Lt` (fuel stated for
a data block whose header row carries the 8 expected fields); quantity 5.0
with unit cost 1250.50 yields total value 6252.50. -/
theorem claim_C8 :
    (∀ content df, parse_stock_visma content = some df →
      ∀ rec ∈ df.records,
        recLook rec "Valor Total Item" =
          mulCell (fillna0 (recLook rec "CantidadActual"))
            (fillna0 (recLook rec "CostoUnitario"))) ∧
    (∀ content df bal i dfRaw, parse_fuel_log content = some (df, bal) →
      (fuelScan content).headerIdx = some i →
      readCsvBlock (content.drop i) = some dfRaw →
      dfRaw.cols.length = 8 →
      ∀ rec ∈ df.records,
        recLook rec "Costo Total Egreso" =
          mulCell (fillna0 (recLook rec "Lts Egreso"))
            (fillna0 (recLook rec "Costo Unitario Lt"))) ∧
    recLook ((((parse_stock_visma
      ["Codigo,Producto,Categoria,CantidadActual,CostoUnitario,Ubicacion,STOCK_MINIMO",
       "A1,P,C,5.0,1250.50,L,0"]).getD (DF.mk [] [])).records).getD 0 [])
      "Valor Total Item" = Value.num (PyFloat.finite (mkRat 62525 10)) ∧
    mkRat 62525 10 = (6252.50 : ℚ) := by
  refine ⟨?_, ?_, by decide, by rw [Rat.mkRat_eq_div]; norm_num⟩
  · intro content df h rec hrec
    rw [parse_stock_visma] at h
    rcases hd : stockDetect content with _ | ⟨i, names, b⟩
    · rw [hd] at h
      cases h
    · rw [hd] at h
      dsimp only at h
      by_cases he : (materializeRows (content.drop (i + 1)) names.length).isEmpty
      · rw [if_pos he] at h
        injection h with h2
        subst h2
        rw [DF.records_mk] at hrec
        simp at hrec
      · rw [if_neg he] at h
        injection h with h2
        subst h2
        rcases stockDetect_names content i names b hd with ⟨rfl, -⟩ | ⟨rfl, -⟩
        · rw [stockNormalize_full_eq, stockFilter_eq_gen _ _ (by decide) (by decide),
            records_selectCols_mk, List.mem_map] at hrec
          obtain ⟨r, hrmem, rfl⟩ := hrec
          have hr2 := List.mem_of_mem_filter hrmem
          rw [List.mem_map] at hr2
          obtain ⟨r0, hr0, rfl⟩ := hr2
          have hlen0 : r0.length = 7 := by
            have := materializeRows_length (content.drop (i + 1)) stockFullHeader.length r0 hr0
            simpa using this
          obtain ⟨a1, a2, a3, a4, a5, a6, a7, rfl⟩ := eq_of_length_seven r0 hlen0
          rfl
        · rw [stockNormalize_nomin_eq, stockFilter_eq_gen _ _ (by decide) (by decide),
            records_selectCols_mk, List.mem_map] at hrec
          obtain ⟨r, hrmem, rfl⟩ := hrec
          have hr2 := List.mem_of_mem_filter hrmem
          rw [List.mem_map] at hr2
          obtain ⟨r0, hr0, rfl⟩ := hr2
          have hlen0 : r0.length = 6 := by
            have := materializeRows_length (content.drop (i + 1)) stockNoMinHeader.length r0 hr0
            simpa using this
          obtain ⟨a1, a2, a3, a4, a5, a6, rfl⟩ := eq_of_length_six r0 hlen0
          rfl
  · intro content df bal i dfRaw h hidx hread h8
    rcases hdrop : content.drop i with _ | ⟨hdr, rest⟩
    · rw [hdrop] at hread
      cases hread
    rw [hdrop, readCsvBlock] at hread
    try dsimp only at hread
    rcases hrows : readCsvRows (csvSplit hdr).length rest with _ | rows
    · rw [hrows] at hread
      cases hread
    rw [hrows] at hread
    injection hread with h5
    subst h5
    have hlen : ∀ r ∈ rows, r.length = 8 := by
      intro r hr
      have := readCsvRows_length (csvSplit hdr).length rest rows hrows r hr
      rw [this]
      exact h8
    rw [parse_fuel_log] at h
    try dsimp only at h
    rw [hidx] at h
    try dsimp only at h
    rw [hdrop, readCsvBlock] at h
    try dsimp only at h
    rw [hrows] at h
    try dsimp only at h
    intro rec hrec
    by_cases hemp : ((DF.mk (csvSplit hdr) rows).rows.isEmpty ∨
        (DF.mk (csvSplit hdr) rows).cols.isEmpty)
    · rw [if_pos hemp] at h
      injection h with h2
      injection h2 with h3 h4
      subst h3
      rw [DF.records_mk] at hrec
      simp at hrec
    · rw [if_neg hemp] at h
      injection h with h2
      injection h2 with h3 h4
      subst h3
      rw [fuelNormalize_eq2 _ _ h8, fuelFilter_eq, fuelFinalize_records_eq,
        List.mem_map] at hrec
      obtain ⟨r, hrmem, rfl⟩ := hrec
      have hr2 := List.mem_of_mem_filter (List.mem_of_mem_filter
        (List.mem_of_mem_filter hrmem))
      rw [List.mem_map] at hr2
      obtain ⟨r0, hr0, rfl⟩ := hr2
      have hlen0 : r0.length = 8 := hlen r0 hr0
      obtain ⟨a1, a2, a3, a4, a5, a6, a7, a8, rfl⟩ := eq_of_length_eight r0 hlen0
      rfl

/-- Witness for C8: on the stock row whose quantity coerces to NaN the
stored total equals the product of the zeroed operands. -/
theorem claim_C8_witness :
    recLook ((((parse_stock_visma
      ["Codigo,Producto,Categoria,CantidadActual,CostoUnitario,Ubicacion,STOCK_MINIMO",
       "A1,P,C,NaN,2,L,0"]).getD (DF.mk [] [])).records).getD 0 [])
      "Valor Total Item" =
      mulCell (fillna0 (recLook ((((parse_stock_visma
        ["Codigo,Producto,Categoria,CantidadActual,CostoUnitario,Ubicacion,STOCK_MINIMO",
         "A1,P,C,NaN,2,L,0"]).getD (DF.mk [] [])).records).getD 0 []) "CantidadActual"))
        (fillna0 (recLook ((((parse_stock_visma
        ["Codigo,Producto,Categoria,CantidadActual,CostoUnitario,Ubicacion,STOCK_MINIMO",
         "A1,P,C,NaN,2,L,0"]).getD (DF.mk [] [])).records).getD 0 []) "CostoUnitario")) :=
  claim_C8.1
    ["Codigo,Producto,Categoria,CantidadActual,CostoUnitario,Ubicacion,STOCK_MINIMO",
     "A1,P,C,NaN,2,L,0"]
    ((parse_stock_visma
      ["Codigo,Producto,Categoria,CantidadActual,CostoUnitario,Ubicacion,STOCK_MINIMO",
       "A1,P,C,NaN,2,L,0"]).getD (DF.mk [] [])) (by decide) _ (by decide)

/-- C9 counterexample.  The claim says an unmapped fuel code yields category
`"Unknown"`; the code fills unmapped codes with `'Desconocido'` (source line
577): a record whose code `999` appears in no `SETUP,MAPEO CODIGO` directive
gets category `Desconocido`, which is not `Unknown`. -/
theorem claim_C9_counterexample :
    recLook (((parse_fuel_log
      ["Fecha,Equipo,CodigoCombustible,LtsIngreso,LtsEgreso,HsKm,Comentarios,CostoUnitarioLt",
       "01-03-2025,MO-13-V,999,0.0,98.0,1778.0,ok,1200.50"]).getD
      (DF.mk [] [], (.finite 0, .finite 0))).1.records.getD 0 [])
      "Tipo de Comb." = Value.str "Desconocido" ∧
    Value.str "Desconocido" ≠ Value.str "Unknown" := by
  refine ⟨by decide, by decide⟩

/-- C9 (amended).  Every fuel-log record's derived category equals the
lookup of the record's (trimmed) fuel code through the mapping collected
from the `SETUP,MAPEO CODIGO` directives, with unmapped codes defaulting to
`'Desconocido'` (not `"Unknown"`); stated for a data block whose header row
carries the 8 expected fields.  The claim's end-to-end example holds: with a
prior `SETUP,MAPEO CODIGO,001,GASOIL` and `SETUP,Saldo Inicial
GASOIL,500.00`, the single data row gets category `GASOIL`, total egress
cost `117649.0` and initial GASOIL balance `500.00`. -/
theorem claim_C9 :
    (∀ content df bal i dfRaw, parse_fuel_log content = some (df, bal) →
      (fuelScan content).headerIdx = some i →
      readCsvBlock (content.drop i) = some dfRaw →
      dfRaw.cols.length = 8 →
      ∀ rec ∈ df.records,
        recLook rec "Tipo de Comb." =
          fuelTypeCell (fuelScan content).mapping (recLook rec "Codigo")) ∧
    (∀ mapping s, mapping.lookup s = none →
      fuelTypeCell mapping (Value.str s) = Value.str "Desconocido") ∧
    recLook (((parse_fuel_log
      ["SETUP,MAPEO CODIGO,001,GASOIL",
       "SETUP,Saldo Inicial GASOIL,500.00",
       "Fecha,Equipo,CodigoCombustible,LtsIngreso,LtsEgreso,HsKm,Comentarios,CostoUnitarioLt",
       "01-03-2025,MO-13-V,001,0.0,98.0,1778.0,Consumo normal,1200.50"]).getD
      (DF.mk [] [], (.finite 0, .finite 0))).1.records.getD 0 [])
      "Tipo de Comb." = Value.str "GASOIL" ∧
    recLook (((parse_fuel_log
      ["SETUP,MAPEO CODIGO,001,GASOIL",
       "SETUP,Saldo Inicial GASOIL,500.00",
       "Fecha,Equipo,CodigoCombustible,LtsIngreso,LtsEgreso,HsKm,Comentarios,CostoUnitarioLt",
       "01-03-2025,MO-13-V,001,0.0,98.0,1778.0,Consumo normal,1200.50"]).getD
      (DF.mk [] [], (.finite 0, .finite 0))).1.records.getD 0 [])
      "Costo Total Egreso" = Value.num (PyFloat.finite (mkRat 117649 1)) ∧
    mkRat 117649 1 = (117649.0 : ℚ) ∧
    ((parse_fuel_log
      ["SETUP,MAPEO CODIGO,001,GASOIL",
       "SETUP,Saldo Inicial GASOIL,500.00",
       "Fecha,Equipo,CodigoCombustible,LtsIngreso,LtsEgreso,HsKm,Comentarios,CostoUnitarioLt",
       "01-03-2025,MO-13-V,001,0.0,98.0,1778.0,Consumo normal,1200.50"]).getD
      (DF.mk [] [], (.finite 0, .finite 0))).2.1 = PyFloat.finite (mkRat 500 1) ∧
    mkRat 500 1 = (500.00 : ℚ) := by
  refine ⟨?_, ?_, by decide, by decide, by rw [Rat.mkRat_eq_div]; norm_num, by decide,
    by rw [Rat.mkRat_eq_div]; norm_num⟩
  · intro content df bal i dfRaw h hidx hread h8
    rcases hdrop : content.drop i with _ | ⟨hdr, rest⟩
    · rw [hdrop] at hread
      cases hread
    rw [hdrop, readCsvBlock] at hread
    try dsimp only at hread
    rcases hrows : readCsvRows (csvSplit hdr).length rest with _ | rows
    · rw [hrows] at hread
      cases hread
    rw [hrows] at hread
    injection hread with h5
    subst h5
    have hlen : ∀ r ∈ rows, r.length = 8 := by
      intro r hr
      have := readCsvRows_length (csvSplit hdr).length rest rows hrows r hr
      rw [this]
      exact h8
    rw [parse_fuel_log] at h
    try dsimp only at h
    rw [hidx] at h
    try dsimp only at h
    rw [hdrop, readCsvBlock] at h
    try dsimp only at h
    rw [hrows] at h
    try dsimp only at h
    intro rec hrec
    by_cases hemp : ((DF.mk (csvSplit hdr) rows).rows.isEmpty ∨
        (DF.mk (csvSplit hdr) rows).cols.isEmpty)
    · rw [if_pos hemp] at h
      injection h with h2
      injection h2 with h3 h4
      subst h3
      rw [DF.records_mk] at hrec
      simp at hrec
    · rw [if_neg hemp] at h
      injection h with h2
      injection h2 with h3 h4
      subst h3
      rw [fuelNormalize_eq2 _ _ h8, fuelFilter_eq, fuelFinalize_records_eq,
        List.mem_map] at hrec
      obtain ⟨r, hrmem, rfl⟩ := hrec
      have hr2 := List.mem_of_mem_filter (List.mem_of_mem_filter
        (List.mem_of_mem_filter hrmem))
      rw [List.mem_map] at hr2
      obtain ⟨r0, hr0, rfl⟩ := hr2
      have hlen0 : r0.length = 8 := hlen r0 hr0
      obtain ⟨a1, a2, a3, a4, a5, a6, a7, a8, rfl⟩ := eq_of_length_eight r0 hlen0
      rfl
  · intro mapping s hs
    rw [fuelTypeCell, hs]

/-- Witness for C9: the record of the concrete GASOIL file carries exactly
the category produced by looking its code up in the scanned mapping. -/
theorem claim_C9_witness :
    recLook (((parse_fuel_log
      ["SETUP,MAPEO CODIGO,001,GASOIL",
       "SETUP,Saldo Inicial GASOIL,500.00",
       "Fecha,Equipo,CodigoCombustible,LtsIngreso,LtsEgreso,HsKm,Comentarios,CostoUnitarioLt",
       "01-03-2025,MO-13-V,001,0.0,98.0,1778.0,Consumo normal,1200.50"]).getD
      (DF.mk [] [], (.finite 0, .finite 0))).1.records.getD 0 [])
      "Tipo de Comb." =
      fuelTypeCell (fuelScan
        ["SETUP,MAPEO CODIGO,001,GASOIL",
         "SETUP,Saldo Inicial GASOIL,500.00",
         "Fecha,Equipo,CodigoCombustible,LtsIngreso,LtsEgreso,HsKm,Comentarios,CostoUnitarioLt",
         "01-03-2025,MO-13-V,001,0.0,98.0,1778.0,Consumo normal,1200.50"]).mapping
        (recLook (((parse_fuel_log
          ["SETUP,MAPEO CODIGO,001,GASOIL",
           "SETUP,Saldo Inicial GASOIL,500.00",
           "Fecha,Equipo,CodigoCombustible,LtsIngreso,LtsEgreso,HsKm,Comentarios,CostoUnitarioLt",
           "01-03-2025,MO-13-V,001,0.0,98.0,1778.0,Consumo normal,1200.50"]).getD
          (DF.mk [] [], (.finite 0, .finite 0))).1.records.getD 0 []) "Codigo") :=
  claim_C9.1
    ["SETUP,MAPEO CODIGO,001,GASOIL",
     "SETUP,Saldo Inicial GASOIL,500.00",
     "Fecha,Equipo,CodigoCombustible,LtsIngreso,LtsEgreso,HsKm,Comentarios,CostoUnitarioLt",
     "01-03-2025,MO-13-V,001,0.0,98.0,1778.0,Consumo normal,1200.50"]
    ((parse_fuel_log
      ["SETUP,MAPEO CODIGO,001,GASOIL",
       "SETUP,Saldo Inicial GASOIL,500.00",
       "Fecha,Equipo,CodigoCombustible,LtsIngreso,LtsEgreso,HsKm,Comentarios,CostoUnitarioLt",
       "01-03-2025,MO-13-V,001,0.0,98.0,1778.0,Consumo normal,1200.50"]).getD
      (DF.mk [] [], (.finite 0, .finite 0))).1
    ((parse_fuel_log
      ["SETUP,MAPEO CODIGO,001,GASOIL",
       "SETUP,Saldo Inicial GASOIL,500.00",
       "Fecha,Equipo,CodigoCombustible,LtsIngreso,LtsEgreso,HsKm,Comentarios,CostoUnitarioLt",
       "01-03-2025,MO-13-V,001,0.0,98.0,1778.0,Consumo normal,1200.50"]).getD
      (DF.mk [] [], (.finite 0, .finite 0))).2 2
    ((readCsvBlock (List.drop 2
      ["SETUP,MAPEO CODIGO,001,GASOIL",
       "SETUP,Saldo Inicial GASOIL,500.00",
       "Fecha,Equipo,CodigoCombustible,LtsIngreso,LtsEgreso,HsKm,Comentarios,CostoUnitarioLt",
       "01-03-2025,MO-13-V,001,0.0,98.0,1778.0,Consumo normal,1200.50"])).getD (DF.mk [] []))
    (by decide) (by decide) (by decide) (by decide) _ (by decide)
